import Mathlib

/-!
# Verification of the offst capacity-graph, keepalive and funder-handler code

Shallow embedding, in Lean 4, of the Rust sources of the `offst` repository:

* `components/index_server/src/graph.rs` (capacity graph and BFS routing),
* `components/keepalive/src/keepalive.rs` (keep-alive event loop),
* `components/index_server/src/verifier.rs` (verifier construction),
* `src/funder/handler/handle_friend.rs` and `src/funder/handler/mod.rs`
  (the funder / messenger handler state machine).

Rust `u64`/`u128` values are modelled as `Nat` (with explicit clamping where
the source clamps), `i64` as `Int`, `HashMap` as association lists in
insertion order, and panics (`expect`, `unwrap`, `assert!`, arithmetic
aborts of `BigUint`) as `Option`/`none`.  Modules of the repository that are
not part of the provided sources (the `bfs` module, the token-channel
`directional`/`outgoing` modules, the freeze guard, the hash clock and
ratchet pool) are modelled from the specification; each such definition
carries a doc comment saying so.
-/

namespace Offst

/-! ## Association lists (model of `HashMap` with insertion order) -/

def lookupA {α β : Type} [DecidableEq α] : List (α × β) → α → Option β
  | [], _ => none
  | (k, v) :: rest, key => if k = key then some v else lookupA rest key

/-- Insert or replace the binding of `key` (first occurrence), appending a
new binding at the end when the key is absent; mirrors `HashMap::insert`. -/
def insertA {α β : Type} [DecidableEq α] : List (α × β) → α → β → List (α × β)
  | [], key, v => [(key, v)]
  | (k, w) :: rest, key, v =>
    if k = key then (key, v) :: rest else (k, w) :: insertA rest key v

/-- Modify the value bound to `key` (first occurrence); `none` when the key
is absent (models `get_mut(..).unwrap()` style access). -/
def modifyA {α β : Type} [DecidableEq α] : List (α × β) → α → (β → β) → Option (List (α × β))
  | [], _, _ => none
  | (k, v) :: rest, key, f =>
    if k = key then some ((k, f v) :: rest)
    else (modifyA rest key f).map (fun l => (k, v) :: l)

theorem lookupA_modifyA_isSome {α β : Type} [DecidableEq α]
    (l : List (α × β)) (key : α) (f : β → β) (v : β)
    (h : lookupA l key = some v) : modifyA l key f = some (insertA l key (f v)) := by
  induction l with
  | nil => simp [lookupA] at h
  | cons kv rest ih =>
    obtain ⟨k, w⟩ := kv
    by_cases hk : k = key
    · subst hk
      simp [lookupA] at h
      subst h
      simp [modifyA, insertA]
    · simp [lookupA, hk] at h
      simp [modifyA, insertA, hk, ih h]

theorem lookupA_insertA_self {α β : Type} [DecidableEq α]
    (l : List (α × β)) (key : α) (v : β) : lookupA (insertA l key v) key = some v := by
  induction l with
  | nil => simp [insertA, lookupA]
  | cons kv rest ih =>
    obtain ⟨k, w⟩ := kv
    by_cases hk : k = key
    · subst hk; simp [insertA, lookupA]
    · simp [insertA, lookupA, hk, ih]

theorem lookupA_insertA_ne {α β : Type} [DecidableEq α]
    (l : List (α × β)) (key key' : α) (v : β) (h : key ≠ key') :
    lookupA (insertA l key v) key' = lookupA l key' := by
  induction l with
  | nil => simp [insertA, lookupA, h]
  | cons kv rest ih =>
    obtain ⟨k, w⟩ := kv
    by_cases hk : k = key
    · subst hk; simp [insertA, lookupA, h]
    · by_cases hk' : k = key'
      · subst hk'; simp [insertA, lookupA, hk]
      · simp [insertA, lookupA, hk, hk', ih]

/-! ## Capacity graph (`components/index_server/src/graph.rs`)

Nodes are modelled as `Nat`; `CapacityEdge` is a pair `(send, recv)` of
`u128` values, modelled as `Nat` (the source only compares and takes minima
of capacities, so no overflow arises). -/

abbrev CapacityEdge := Nat × Nat

/-- `CapacityGraph { nodes: HashMap<N, HashMap<N, CapacityEdge>> }`,
modelled as a nested association list in insertion order. -/
abbrev Graph := List (Nat × List (Nat × CapacityEdge))

/-- `CapacityGraph::update_edge`: add or update an edge. -/
def update_edge (g : Graph) (a b : Nat) (edge : CapacityEdge) : Graph :=
  insertA g a (insertA ((lookupA g a).getD []) b edge)

/-- `CapacityGraph::get_edge`: get a directed edge, if it exists. -/
def get_edge (g : Graph) (a b : Nat) : Option CapacityEdge :=
  match lookupA g a with
  | none => none
  | some a_map => lookupA a_map b

/-- `CapacityGraph::get_send_capacity`: the effective send capacity from `a`
to `b`, `min(edge_ab.send, edge_ba.recv)`, and `0` if either directed edge
is absent. -/
def get_send_capacity (g : Graph) (a b : Nat) : Nat :=
  match get_edge g a b with
  | none => 0
  | some a_b_edge =>
    match get_edge g b a with
    | none => 0
    | some b_a_edge => min a_b_edge.1 b_a_edge.2

/-- `CapacityGraph::neighbors_with_send_capacity`: the keys of `a`'s
adjacency map whose send capacity is at least `capacity`; `none` when `a`
has no adjacency entry (the source returns `Option<impl Iterator>` and the
caller in `get_route` unwraps it). -/
def neighbors_with_send_capacity (g : Graph) (a : Nat) (capacity : Nat) :
    Option (List Nat) :=
  (lookupA g a).map (fun a_map =>
    (a_map.map (fun kv => kv.1)).filter (fun b => capacity ≤ get_send_capacity g a b))

/-- The list of consecutive pairs of a route. -/
def hops (p : List Nat) : List (Nat × Nat) := p.zip p.tail

/-- Minimum of a list of `Nat`, `none` on the empty list; models
`Iterator::min`. -/
def listMin : List Nat → Option Nat
  | [] => none
  | x :: rest =>
    match listMin rest with
    | none => some x
    | some y => some (min x y)

/-- The send capacities of the consecutive pairs of a route. -/
def route_capacities (g : Graph) (route : List Nat) : List Nat :=
  (hops route).map (fun xy => get_send_capacity g xy.1 xy.2)

/-- `CapacityGraph::get_route_capacity`: the minimum of the send capacities
over consecutive pairs of the route (`none` for routes shorter than 2). -/
def get_route_capacity (g : Graph) (route : List Nat) : Option Nat :=
  listMin (route_capacities g route)

/-! ### BFS

Modelled from the spec: the `bfs` function lives in
`components/index_server/src/bfs.rs`, which is not among the provided
sources; only its callers in `graph.rs` are.  Per the spec it is a
breadth-first search from `a` to `b` over the neighbor relation supplied by
the caller, returning a shortest route (ties broken deterministically), and
per the assertions in `get_loop_from` / `get_loop_to` a query with `a = b`
returns a non-trivial cycle (never the one-element route `[a]`).  We model
this by checking for the target when an edge into it is generated, so that
`bfs a a` searches for a shortest cycle through `a`.

`adj x = none` models the `unwrap()` panic in `get_route`'s neighbor closure
when `x` has no adjacency entry.  The outer `Option` of the result is the
panic layer (`none` = panic or fuel exhaustion, which the lemmas below show
is unreachable with the fuel supplied by `get_route`); the inner `Option` is
the source's `Option<Vec<N>>`. -/

/-- One queue entry is a reversed partial route (current node first). -/
def bfsAux (adj : Nat → Option (List Nat)) (b : Nat) :
    Nat → List (List Nat) → List Nat → Option (Option (List Nat))
  | _, [], _ => some none
  | 0, _ :: _, _ => none
  | fuel + 1, p :: queue, visited =>
    match p.head? with
    | none => none
    | some x =>
      match adj x with
      | none => none
      | some ns =>
        if b ∈ ns then some (some ((b :: p).reverse))
        else
          bfsAux adj b fuel
            (queue ++ ((ns.filter (fun y => !decide (y ∈ visited))).dedup).map
              (fun y => y :: p))
            (visited ++ (ns.filter (fun y => !decide (y ∈ visited))).dedup)

/-- All node names mentioned by the graph (sources and adjacency keys);
a superset of everything BFS can ever enqueue. -/
def graphNodes (g : Graph) : List Nat :=
  g.map (fun kv => kv.1) ++ g.flatMap (fun kv => kv.2.map (fun e => e.1))

/-- `Modelled from the spec:` the fuel with which `get_route` runs the
breadth-first search; one unit per node expansion, which the lemmas below
show is always sufficient. -/
def bfsFuel (g : Graph) : Nat := (graphNodes g).length + 2

/-- `bfs(a, b, get_neighbors)` as called by `get_route`: the neighbor
function is `neighbors_with_send_capacity(..).unwrap()`. -/
def bfs (g : Graph) (a b : Nat) (capacity : Nat) : Option (Option (List Nat)) :=
  bfsAux (fun x => neighbors_with_send_capacity g x capacity) b (bfsFuel g) [[a]] [a]

/-- `CapacityGraph::get_route`: get a route of capacity at least `capacity`
together with the capacity that can be sent through it.  The outer `Option`
is the panic layer (`none` = a `unwrap()` panic inside `bfs`'s neighbor
closure or on `get_route_capacity`). -/
def get_route (g : Graph) (a b : Nat) (capacity : Nat) :
    Option (Option (List Nat × Nat)) :=
  match bfs g a b capacity with
  | none => none
  | some none => some none
  | some (some route) =>
    match get_route_capacity g route with
    | none => none
    | some c => some (some (route, c))

/-! ### Correctness of the BFS search -/

theorem lookupA_mem {α β : Type} [DecidableEq α] :
    ∀ (l : List (α × β)) (k : α) (v : β), lookupA l k = some v → (k, v) ∈ l := by
  intro l
  induction l with
  | nil => intro k v h; simp [lookupA] at h
  | cons kv rest ih =>
    intro k v h
    obtain ⟨k', w⟩ := kv
    by_cases hk : k' = k
    · subst hk
      simp [lookupA] at h
      subst h
      exact List.mem_cons_self _ _
    · simp [lookupA, hk] at h
      exact List.mem_cons_of_mem _ (ih k v h)

theorem lookupA_mem_keys {α β : Type} [DecidableEq α]
    (l : List (α × β)) (k : α) (v : β) (h : lookupA l k = some v) :
    k ∈ l.map Prod.fst := by
  have := lookupA_mem l k v h
  exact List.mem_map.mpr ⟨(k, v), this, rfl⟩

theorem listMin_spec : ∀ (l : List Nat) (m : Nat), listMin l = some m →
    m ∈ l ∧ ∀ v ∈ l, m ≤ v := by
  intro l
  induction l with
  | nil => intro m h; simp [listMin] at h
  | cons x rest ih =>
    intro m h
    simp only [listMin] at h
    cases hrest : listMin rest with
    | none =>
      rw [hrest] at h
      cases rest with
      | nil =>
        simp at h
        subst h
        simp
      | cons z t =>
        exfalso
        simp only [listMin] at hrest
        cases h' : listMin t with
        | none => rw [h'] at hrest; exact Option.noConfusion hrest
        | some y => rw [h'] at hrest; exact Option.noConfusion hrest
    | some y =>
      rw [hrest] at h
      simp at h
      obtain ⟨hy, hle⟩ := ih y hrest
      subst h
      constructor
      · rcases Nat.le_total x y with hxy | hyx
        · simp [Nat.min_eq_left hxy]
        · rw [Nat.min_eq_right hyx]; exact List.mem_cons_of_mem _ hy
      · intro v hv
        rcases List.mem_cons.mp hv with hvx | hvr
        · subst hvx; exact Nat.min_le_left _ _
        · exact le_trans (Nat.min_le_right _ _) (hle v hvr)

theorem hops_cons_cons (x w : Nat) (l : List Nat) :
    hops (x :: w :: l) = (x, w) :: hops (w :: l) := rfl

theorem hops_append_single : ∀ (l : List Nat) (z y : Nat),
    l.getLast? = some z → hops (l ++ [y]) = hops l ++ [(z, y)] := by
  intro l
  induction l with
  | nil => intro z y h; simp at h
  | cons x rest ih =>
    intro z y h
    cases rest with
    | nil =>
      simp at h
      subst h
      simp [hops]
    | cons w t =>
      rw [List.getLast?_cons_cons] at h
      have e1 : (x :: w :: t) ++ [y] = x :: w :: (t ++ [y]) := by simp
      have e2 : w :: (t ++ [y]) = (w :: t) ++ [y] := by simp
      calc hops ((x :: w :: t) ++ [y])
          = (x, w) :: hops (w :: (t ++ [y])) := by rw [e1, hops_cons_cons]
        _ = (x, w) :: hops ((w :: t) ++ [y]) := by rw [e2]
        _ = (x, w) :: (hops (w :: t) ++ [(z, y)]) := by rw [ih z y h]
        _ = hops (x :: w :: t) ++ [(z, y)] := by rw [hops_cons_cons]; simp

/-- One step of the adjacency relation used by the BFS. -/
def AdjStep (adj : Nat → Option (List Nat)) (x y : Nat) : Prop :=
  ∃ ns, adj x = some ns ∧ y ∈ ns

/-- A set of nodes out of which no BFS edge leads and none of which has an
edge into the target `b`. -/
def BfsClosed (adj : Nat → Option (List Nat)) (b : Nat) (V : List Nat) : Prop :=
  ∀ x ∈ V, ∃ ns, adj x = some ns ∧ b ∉ ns ∧ ∀ y ∈ ns, y ∈ V

/-- A reversed partial BFS route: current node first, start node last. -/
inductive RevPath (adj : Nat → Option (List Nat)) : List Nat → Prop
  | single (x : Nat) : RevPath adj [x]
  | cons (y x : Nat) (p : List Nat) (hp : RevPath adj (x :: p))
      (hstep : AdjStep adj x y) : RevPath adj (y :: x :: p)

theorem revPath_hops (adj : Nat → Option (List Nat)) :
    ∀ p, RevPath adj p → ∀ xy ∈ hops p.reverse, AdjStep adj xy.1 xy.2 := by
  intro p hp
  induction hp with
  | single x => simp [hops]
  | cons y x p hp hstep ih =>
    intro xy hxy
    rw [List.reverse_cons] at hxy
    have hlast : (x :: p).reverse.getLast? = some x := by
      rw [List.getLast?_reverse]; rfl
    rw [hops_append_single _ x y hlast] at hxy
    rcases List.mem_append.mp hxy with h | h
    · exact ih xy h
    · simp at h
      subst h
      exact hstep

theorem no_adj_path_of_closed (adj : Nat → Option (List Nat)) (b : Nat)
    (V : List Nat) (hV : BfsClosed adj b V) :
    ∀ p x, x ∈ V → p.head? = some x → p.getLast? = some b → 2 ≤ p.length →
      (∀ xy ∈ hops p, AdjStep adj xy.1 xy.2) → False := by
  intro p
  induction p with
  | nil => intro x _ h; simp at h
  | cons x0 rest ih =>
    intro x hxV hhead hlast hlen hhops
    simp at hhead
    subst hhead
    cases rest with
    | nil => simp at hlen
    | cons y t =>
      have hstep : AdjStep adj x0 y := by
        apply hhops (x0, y)
        simp [hops]
      obtain ⟨ns, hns, hyns⟩ := hstep
      obtain ⟨ns', hns', hbns', hsub⟩ := hV x0 hxV
      rw [hns] at hns'
      injection hns' with hns'
      subst hns'
      have hyV : y ∈ V := hsub y hyns
      cases t with
      | nil =>
        simp at hlast
        subst hlast
        exact hbns' hyns
      | cons z t' =>
        apply ih y hyV rfl
        · rw [List.getLast?_cons_cons] at hlast
          exact hlast
        · simp
        · intro xy hxy
          apply hhops
          simp only [hops] at hxy ⊢
          simp only [List.zip, List.tail_cons, List.zipWith_cons_cons]
          exact List.mem_cons_of_mem _ hxy

/-- Master invariant lemma for `bfsAux`: with enough fuel the search never
returns `none` (no panic, no fuel exhaustion), a `some none` outcome yields
a closed set of nodes containing everything visited, and a `some (some r)`
outcome yields the path structure of `r`. -/
theorem bfsAux_spec (adj : Nat → Option (List Nat)) (b : Nat) (D : Finset Nat)
    (hadj : ∀ x ns, adj x = some ns → ∀ y ∈ ns, y ∈ D ∧ (adj y).isSome) (a : Nat) :
    ∀ fuel queue visited,
      (∀ p ∈ queue, ∃ x, p.head? = some x ∧ (adj x).isSome ∧ x ∈ visited) →
      (∀ p ∈ queue, RevPath adj p ∧ p.getLast? = some a) →
      (∀ x ∈ visited, (∃ p ∈ queue, p.head? = some x) ∨
        (∃ ns, adj x = some ns ∧ b ∉ ns ∧ ∀ y ∈ ns, y ∈ visited)) →
      queue.length + (D \ visited.toFinset).card < fuel →
      bfsAux adj b fuel queue visited ≠ none ∧
      (bfsAux adj b fuel queue visited = some none →
        ∃ V, (∀ x ∈ visited, x ∈ V) ∧ BfsClosed adj b V) ∧
      (∀ r, bfsAux adj b fuel queue visited = some (some r) →
        ∃ p x ns, RevPath adj p ∧ p.getLast? = some a ∧ p.head? = some x ∧
          adj x = some ns ∧ b ∈ ns ∧ r = (b :: p).reverse) := by
  intro fuel
  induction fuel with
  | zero =>
    intro queue visited _ _ _ hfuel
    exact absurd hfuel (Nat.not_lt_zero _)
  | succ f ih =>
    intro queue visited hq hpath hv hfuel
    cases queue with
    | nil =>
      refine ⟨by simp [bfsAux], ?_, by intro r hr; simp [bfsAux] at hr⟩
      intro _
      refine ⟨visited, fun x hx => hx, ?_⟩
      intro x hx
      rcases hv x hx with ⟨p, hp, _⟩ | hclosed
      · exact absurd hp (List.not_mem_nil p)
      · exact hclosed
    | cons p rest =>
      obtain ⟨x, hhead, hsome, hxvis⟩ := hq p (List.mem_cons_self _ _)
      cases p with
      | nil => exact absurd hhead (by simp)
      | cons z ptail =>
        rw [List.head?_cons] at hhead
        injection hhead with hzx
        subst hzx
        obtain ⟨ns, hns⟩ := Option.isSome_iff_exists.mp hsome
        by_cases hb : b ∈ ns
        · have heval : bfsAux adj b (f + 1) ((z :: ptail) :: rest) visited
              = some (some ((b :: z :: ptail).reverse)) := by
            simp only [bfsAux, List.head?_cons, hns, if_pos hb]
          refine ⟨by rw [heval]; simp, by rw [heval]; intro h; simp at h, ?_⟩
          intro r hr
          rw [heval] at hr
          have hr' : (b :: z :: ptail).reverse = r := by
            injection hr with hr; injection hr
          obtain ⟨hrev, hlast⟩ := hpath (z :: ptail) (List.mem_cons_self _ _)
          exact ⟨z :: ptail, z, ns, hrev, hlast, rfl, hns, hb, hr'.symm⟩
        · have heval : bfsAux adj b (f + 1) ((z :: ptail) :: rest) visited
              = bfsAux adj b f
                  (rest ++ ((ns.filter (fun y => !decide (y ∈ visited))).dedup).map
                    (fun y => y :: z :: ptail))
                  (visited ++ (ns.filter (fun y => !decide (y ∈ visited))).dedup) := by
            simp only [bfsAux, List.head?_cons, hns, if_neg hb]
          set fresh := (ns.filter (fun y => !decide (y ∈ visited))).dedup with hfresh_def
          set queue' := rest ++ fresh.map (fun y => y :: z :: ptail) with hqnewdef
          set visited' := visited ++ fresh with hvnewdef
          have hfresh_mem : ∀ y, y ∈ fresh ↔ (y ∈ ns ∧ y ∉ visited) := by
            intro y
            rw [hfresh_def]
            simp [List.mem_dedup, List.mem_filter]
          have hfresh_nodup : fresh.Nodup := List.nodup_dedup _
          have hvis_sub : ∀ w, w ∈ visited → w ∈ visited' := by
            intro w hw
            rw [hvnewdef]
            exact List.mem_append.mpr (Or.inl hw)
          have hq' : ∀ p' ∈ queue', ∃ x', p'.head? = some x' ∧
              (adj x').isSome ∧ x' ∈ visited' := by
            intro p' hp'
            rcases List.mem_append.mp (hqnewdef ▸ hp') with h | h
            · obtain ⟨x', h1, h2, h3⟩ := hq p' (List.mem_cons_of_mem _ h)
              exact ⟨x', h1, h2, hvis_sub x' h3⟩
            · obtain ⟨y, hy, rfl⟩ := List.mem_map.mp h
              have hyns := (hfresh_mem y).mp hy
              obtain ⟨hyD, hysome⟩ := hadj z ns hns y hyns.1
              refine ⟨y, rfl, hysome, ?_⟩
              rw [hvnewdef]
              exact List.mem_append.mpr (Or.inr hy)
          have hpath' : ∀ p' ∈ queue', RevPath adj p' ∧ p'.getLast? = some a := by
            intro p' hp'
            rcases List.mem_append.mp (hqnewdef ▸ hp') with h | h
            · exact hpath p' (List.mem_cons_of_mem _ h)
            · obtain ⟨y, hy, rfl⟩ := List.mem_map.mp h
              obtain ⟨hrev, hlast⟩ := hpath (z :: ptail) (List.mem_cons_self _ _)
              refine ⟨RevPath.cons y z ptail hrev ⟨ns, hns, ((hfresh_mem y).mp hy).1⟩, ?_⟩
              rw [List.getLast?_cons_cons]
              exact hlast
          have hv' : ∀ x' ∈ visited', (∃ p' ∈ queue', p'.head? = some x') ∨
              (∃ ns', adj x' = some ns' ∧ b ∉ ns' ∧ ∀ y ∈ ns', y ∈ visited') := by
            intro x' hx'
            rcases List.mem_append.mp (hvnewdef ▸ hx') with hxv | hxf
            · rcases hv x' hxv with ⟨p'', hp'', hh''⟩ | ⟨ns'', h1, h2, h3⟩
              · rcases List.mem_cons.mp hp'' with rfl | hmem
                · have hxz : z = x' := by
                    rw [List.head?_cons] at hh''
                    injection hh''
                  subst hxz
                  right
                  refine ⟨ns, hns, hb, ?_⟩
                  intro y hy
                  by_cases hyv : y ∈ visited
                  · exact hvis_sub y hyv
                  · rw [hvnewdef]
                    exact List.mem_append.mpr (Or.inr ((hfresh_mem y).mpr ⟨hy, hyv⟩))
                · left
                  refine ⟨p'', ?_, hh''⟩
                  rw [hqnewdef]
                  exact List.mem_append.mpr (Or.inl hmem)
              · right
                exact ⟨ns'', h1, h2, fun y hy => hvis_sub y (h3 y hy)⟩
            · left
              refine ⟨x' :: z :: ptail, ?_, rfl⟩
              rw [hqnewdef]
              exact List.mem_append.mpr (Or.inr (List.mem_map.mpr ⟨x', hxf, rfl⟩))
          have hsubD : fresh.toFinset ⊆ D \ visited.toFinset := by
            intro y hy
            rw [List.mem_toFinset] at hy
            have hyns := (hfresh_mem y).mp hy
            obtain ⟨hyD, _⟩ := hadj z ns hns y hyns.1
            rw [Finset.mem_sdiff, List.mem_toFinset]
            exact ⟨hyD, hyns.2⟩
          have hcardfresh : fresh.toFinset.card = fresh.length :=
            List.toFinset_card_of_nodup hfresh_nodup
          have hset : D \ visited'.toFinset = (D \ visited.toFinset) \ fresh.toFinset := by
            rw [hvnewdef]
            ext w
            simp only [Finset.mem_sdiff, List.toFinset_append, Finset.mem_union]
            tauto
          have hcard : (D \ visited'.toFinset).card
              = (D \ visited.toFinset).card - fresh.length := by
            rw [hset, Finset.card_sdiff hsubD, hcardfresh]
          have hle : fresh.length ≤ (D \ visited.toFinset).card := by
            calc fresh.length = fresh.toFinset.card := hcardfresh.symm
              _ ≤ _ := Finset.card_le_card hsubD
          have hqlen : queue'.length = rest.length + fresh.length := by
            rw [hqnewdef]
            simp
          have hfuel' : queue'.length + (D \ visited'.toFinset).card < f := by
            have hlen0 : ((z :: ptail) :: rest).length = rest.length + 1 := by simp
            rw [hlen0] at hfuel
            omega
          obtain ⟨c1, c2, c3⟩ := ih queue' visited' hq' hpath' hv' hfuel'
          refine ⟨by rw [heval]; exact c1, ?_, ?_⟩
          · rw [heval]
            intro h
            obtain ⟨V, hVsup, hVcl⟩ := c2 h
            exact ⟨V, fun w hw => hVsup w (hvis_sub w hw), hVcl⟩
          · rw [heval]
            exact c3

/-- The claim's notion of a usable path: at least one hop, endpoints `a` and
`b`, and every consecutive hop `(x, y)` has send capacity
`min(edge_xy.send, edge_yx.recv) ≥ cap` (capacity `0` when either directed
edge is absent, as computed by `get_send_capacity`). -/
def IsCapPath (g : Graph) (cap : Nat) (p : List Nat) (a b : Nat) : Prop :=
  2 ≤ p.length ∧ p.head? = some a ∧ p.getLast? = some b ∧
    ∀ xy ∈ hops p, cap ≤ get_send_capacity g xy.1 xy.2

instance (g : Graph) (cap : Nat) (p : List Nat) (a b : Nat) :
    Decidable (IsCapPath g cap p a b) := by
  unfold IsCapPath
  infer_instance

theorem get_edge_lookup (g : Graph) (x y : Nat) (e : CapacityEdge)
    (h : get_edge g x y = some e) :
    ∃ m, lookupA g x = some m ∧ lookupA m y = some e := by
  unfold get_edge at h
  cases hm : lookupA g x with
  | none => rw [hm] at h; exact Option.noConfusion h
  | some m => rw [hm] at h; exact ⟨m, rfl, h⟩

theorem get_send_capacity_pos (g : Graph) (x y : Nat)
    (h : 1 ≤ get_send_capacity g x y) :
    (∃ e, get_edge g x y = some e) ∧ ∃ e, get_edge g y x = some e := by
  unfold get_send_capacity at h
  cases h1 : get_edge g x y with
  | none => rw [h1] at h; exact absurd h (by simp)
  | some e1 =>
    rw [h1] at h
    cases h2 : get_edge g y x with
    | none => rw [h2] at h; exact absurd h (by simp)
    | some e2 => exact ⟨⟨e1, rfl⟩, ⟨e2, rfl⟩⟩

theorem adjStep_iff (g : Graph) (cap : Nat) (hcap : 1 ≤ cap) (x y : Nat) :
    AdjStep (fun n => neighbors_with_send_capacity g n cap) x y ↔
      cap ≤ get_send_capacity g x y := by
  constructor
  · rintro ⟨ns, hns, hy⟩
    simp only [neighbors_with_send_capacity] at hns
    cases hm : lookupA g x with
    | none => rw [hm] at hns; exact Option.noConfusion hns
    | some m =>
      rw [hm] at hns
      simp only [Option.map_some'] at hns
      injection hns with hns
      subst hns
      have := (List.mem_filter.mp hy).2
      exact of_decide_eq_true this
  · intro hle
    have h1 : 1 ≤ get_send_capacity g x y := le_trans hcap hle
    obtain ⟨⟨exy, hexy⟩, _⟩ := get_send_capacity_pos g x y h1
    obtain ⟨m, hm, hmy⟩ := get_edge_lookup g x y exy hexy
    refine ⟨(m.map (fun kv => kv.1)).filter
      (fun c => decide (cap ≤ get_send_capacity g x c)), ?_, ?_⟩
    · simp [neighbors_with_send_capacity, hm]
    · refine List.mem_filter.mpr ⟨?_, decide_eq_true hle⟩
      exact lookupA_mem_keys m y exy hmy

theorem capAdj_bound (g : Graph) (cap : Nat) (hcap : 1 ≤ cap) :
    ∀ x ns, neighbors_with_send_capacity g x cap = some ns →
      ∀ y ∈ ns, y ∈ (graphNodes g).toFinset ∧
        (neighbors_with_send_capacity g y cap).isSome := by
  intro x ns hns y hy
  simp only [neighbors_with_send_capacity] at hns
  cases hm : lookupA g x with
  | none => rw [hm] at hns; exact Option.noConfusion hns
  | some m =>
    rw [hm] at hns
    simp only [Option.map_some'] at hns
    injection hns with hns
    subst hns
    obtain ⟨hymem, hple⟩ := List.mem_filter.mp hy
    constructor
    · rw [List.mem_toFinset]
      unfold graphNodes
      refine List.mem_append.mpr (Or.inr ?_)
      refine List.mem_flatMap.mpr ⟨(x, m), lookupA_mem g x m hm, ?_⟩
      exact hymem
    · have hle : cap ≤ get_send_capacity g x y := of_decide_eq_true hple
      have h1 : 1 ≤ get_send_capacity g x y := le_trans hcap hle
      obtain ⟨_, ⟨eyx, heyx⟩⟩ := get_send_capacity_pos g x y h1
      obtain ⟨my, hmy, _⟩ := get_edge_lookup g y x eyx heyx
      simp [neighbors_with_send_capacity, hmy]

theorem bfs_found_path (g : Graph) (cap a b : Nat) (hcap : 1 ≤ cap)
    (p : List Nat) (x : Nat) (ns : List Nat)
    (hrev : RevPath (fun n => neighbors_with_send_capacity g n cap) p)
    (hlast : p.getLast? = some a) (hhead : p.head? = some x)
    (hns : neighbors_with_send_capacity g x cap = some ns) (hb : b ∈ ns) :
    IsCapPath g cap ((b :: p).reverse) a b := by
  cases p with
  | nil => exact absurd hhead (by simp)
  | cons z t =>
    rw [List.head?_cons] at hhead
    injection hhead with hzx
    subst hzx
    refine ⟨by simp, ?_, ?_, ?_⟩
    · rw [List.head?_reverse, List.getLast?_cons_cons]
      exact hlast
    · rw [List.getLast?_reverse]
      rfl
    · intro xy hxy
      rw [List.reverse_cons] at hxy
      have hrl : (z :: t).reverse.getLast? = some z := by
        rw [List.getLast?_reverse]; rfl
      rw [hops_append_single _ z b hrl] at hxy
      rcases List.mem_append.mp hxy with h | h
      · exact (adjStep_iff g cap hcap xy.1 xy.2).mp
          (revPath_hops _ _ hrev xy h)
      · simp at h
        subst h
        exact (adjStep_iff g cap hcap z b).mp ⟨ns, hns, hb⟩

theorem get_route_eval_panic (g : Graph) (a b cap : Nat)
    (hbfs : bfs g a b cap = none) : get_route g a b cap = none := by
  unfold get_route
  rw [hbfs]

theorem get_route_eval_none (g : Graph) (a b cap : Nat)
    (hbfs : bfs g a b cap = some none) : get_route g a b cap = some none := by
  unfold get_route
  rw [hbfs]

theorem get_route_eval_route (g : Graph) (a b cap : Nat) (r : List Nat)
    (hbfs : bfs g a b cap = some (some r)) :
    get_route g a b cap = (match get_route_capacity g r with
      | none => none
      | some c => some (some (r, c))) := by
  unfold get_route
  rw [hbfs]

/-- C5, amended: for thresholds `cap ≥ 1` and a start node with an
adjacency entry, `get_route` returns no route exactly when no usable path
exists, and a returned capacity is the minimum send capacity along the
returned route. -/
theorem get_route_correct (g : Graph) (a b cap : Nat) (hcap : 1 ≤ cap)
    (ha : (lookupA g a).isSome = true) :
    (get_route g a b cap = some none ↔ ¬ ∃ p, IsCapPath g cap p a b) ∧
    (∀ r c, get_route g a b cap = some (some (r, c)) →
      IsCapPath g cap r a b ∧ c ∈ route_capacities g r ∧
        ∀ v ∈ route_capacities g r, c ≤ v) := by
  obtain ⟨ma, hma⟩ := Option.isSome_iff_exists.mp ha
  have hinv1 : ∀ p ∈ [[a]], ∃ x, p.head? = some x ∧
      ((fun n => neighbors_with_send_capacity g n cap) x).isSome ∧ x ∈ [a] := by
    intro p hp
    simp at hp
    subst hp
    refine ⟨a, rfl, ?_, by simp⟩
    simp [neighbors_with_send_capacity, hma]
  have hinv2 : ∀ p ∈ [[a]], RevPath (fun n => neighbors_with_send_capacity g n cap) p ∧
      p.getLast? = some a := by
    intro p hp
    simp at hp
    subst hp
    exact ⟨RevPath.single a, rfl⟩
  have hinv3 : ∀ x ∈ [a], (∃ p ∈ [[a]], p.head? = some x) ∨
      (∃ ns, (fun n => neighbors_with_send_capacity g n cap) x = some ns ∧
        b ∉ ns ∧ ∀ y ∈ ns, y ∈ [a]) := by
    intro x hx
    simp at hx
    subst hx
    exact Or.inl ⟨[x], by simp, rfl⟩
  have hinvfuel : ([[a]] : List (List Nat)).length +
      ((graphNodes g).toFinset \ ([a] : List Nat).toFinset).card < bfsFuel g := by
    have h1 : ((graphNodes g).toFinset \ ([a] : List Nat).toFinset).card
        ≤ (graphNodes g).toFinset.card := Finset.card_le_card (Finset.sdiff_subset)
    have h2 : (graphNodes g).toFinset.card ≤ (graphNodes g).length :=
      List.toFinset_card_le _
    simp only [List.length_singleton, bfsFuel]
    omega
  obtain ⟨c1, c2, c3⟩ := bfsAux_spec (fun n => neighbors_with_send_capacity g n cap) b
    ((graphNodes g).toFinset) (capAdj_bound g cap hcap) a (bfsFuel g) [[a]] [a]
    hinv1 hinv2 hinv3 hinvfuel
  have hbfs_eq : bfs g a b cap
      = bfsAux (fun n => neighbors_with_send_capacity g n cap) b (bfsFuel g) [[a]] [a] := rfl
  constructor
  · constructor
    · intro h hex
      obtain ⟨p, hp⟩ := hex
      cases hbfs : bfs g a b cap with
      | none => exact c1 (hbfs_eq ▸ hbfs)
      | some o =>
        cases o with
        | none =>
          obtain ⟨V, hVsup, hVcl⟩ := c2 (hbfs_eq ▸ hbfs)
          obtain ⟨hlen, hhead, hlast, hhops⟩ := hp
          exact no_adj_path_of_closed _ b V hVcl p a (hVsup a (by simp)) hhead hlast hlen
            (fun xy hxy => (adjStep_iff g cap hcap xy.1 xy.2).mpr (hhops xy hxy))
        | some r =>
          rw [get_route_eval_route g a b cap r hbfs] at h
          cases hc : get_route_capacity g r with
          | none => rw [hc] at h; exact Option.noConfusion h
          | some c =>
            rw [hc] at h
            simp at h
    · intro hnp
      cases hbfs : bfs g a b cap with
      | none => exact absurd (hbfs_eq ▸ hbfs) c1
      | some o =>
        cases o with
        | none => exact get_route_eval_none g a b cap hbfs
        | some r =>
          exfalso
          obtain ⟨p, x, ns, hrev, hlast, hhead, hns, hb, hr⟩ := c3 r (hbfs_eq ▸ hbfs)
          subst hr
          exact hnp ⟨(b :: p).reverse, bfs_found_path g cap a b hcap p x ns hrev hlast hhead hns hb⟩
  · intro r c h
    cases hbfs : bfs g a b cap with
    | none =>
      rw [get_route_eval_panic g a b cap hbfs] at h
      exact Option.noConfusion h
    | some o =>
      cases o with
      | none =>
        rw [get_route_eval_none g a b cap hbfs] at h
        simp at h
      | some r' =>
        rw [get_route_eval_route g a b cap r' hbfs] at h
        cases hc : get_route_capacity g r' with
        | none => rw [hc] at h; exact Option.noConfusion h
        | some c' =>
          rw [hc] at h
          simp at h
          obtain ⟨hr, hcc⟩ := h
          subst hr
          subst hcc
          obtain ⟨p, x, ns, hrev, hlast, hhead, hns, hb, hreq⟩ := c3 r' (hbfs_eq ▸ hbfs)
          subst hreq
          refine ⟨bfs_found_path g cap a b hcap p x ns hrev hlast hhead hns hb, ?_⟩
          exact listMin_spec _ _ hc

/-! ### Concrete graphs for C5 and C6 -/

/-- Two mutual edges `0 ↔ 1`; node `2` is mentioned nowhere. -/
def g1 : Graph := update_edge (update_edge [] 0 1 (10, 10)) 1 0 (10, 10)

/-- A single directed edge `1 → 0`; the node `0` has no adjacency entry. -/
def g2 : Graph := update_edge [] 1 0 (10, 10)

/-- A well-behaved two-node graph used as a witness input. -/
def gw : Graph := update_edge (update_edge [] 0 1 (30, 30)) 1 0 (30, 30)

theorem g2_no_path : ¬ ∃ p, IsCapPath g2 5 p 0 1 := by
  rintro ⟨p, hlen, hhead, hlast, hhops⟩
  cases p with
  | nil => simp at hhead
  | cons z t =>
    rw [List.head?_cons] at hhead
    injection hhead with hz
    subst hz
    cases t with
    | nil => simp at hlen
    | cons y t' =>
      have hmem : ((0 : Nat), y) ∈ hops (0 :: y :: t') := by
        rw [hops_cons_cons]
        exact List.mem_cons_self _ _
      have hge := hhops (0, y) hmem
      have hcap0 : get_send_capacity g2 0 y = 0 := rfl
      rw [hcap0] at hge
      omega

/-- C5 counterexample: the claim fails as stated.  At threshold `0` the
claim's hop condition holds for any pair of nodes (capacity `0 ≥ 0`), so a
"path" `[0, 2]` exists in `g1`, yet `get_route` explores only recorded
adjacency keys and returns no route.  And in `g2`, where no path from `0`
exists at threshold `5`, `get_route` panics (the `unwrap()` in its neighbor
closure, modelled by the outer `none`) instead of returning `None`. -/
theorem get_route_claim_counterexample :
    (get_route g1 0 2 0 = some none ∧ IsCapPath g1 0 [0, 2] 0 2) ∧
    (get_route g2 0 1 5 = none ∧ ¬ ∃ p, IsCapPath g2 5 p 0 1) :=
  ⟨⟨by decide, by decide⟩, by decide, g2_no_path⟩

/-- Witness for `get_route_correct` at a concrete input. -/
theorem get_route_correct_witness :
    ((1 ≤ 20 ∧ (lookupA gw 0).isSome = true) ∧
      (get_route gw 0 1 20 = some none ↔ ¬ ∃ p, IsCapPath gw 20 p 0 1) ∧
      (∀ r c, get_route gw 0 1 20 = some (some (r, c)) →
        IsCapPath gw 20 r 0 1 ∧ c ∈ route_capacities gw r ∧
          ∀ v ∈ route_capacities gw r, c ≤ v)) ∧
    get_route gw 0 1 20 = some (some ([0, 1], 30)) :=
  ⟨⟨⟨by decide, by decide⟩, get_route_correct gw 0 1 20 (by decide) (by decide)⟩,
    by decide⟩

/-- The literal graph of `test_get_route` in
`components/index_server/src/graph.rs`: both `update_edge(2, 5, (30, 5))`
and then `update_edge(2, 5, (5, 30))` write the directed edge `2 → 5`
(the second call overwrites the first), and no `5 → 2` edge is ever
inserted. -/
def g6 : Graph :=
  update_edge (update_edge (update_edge (update_edge (update_edge (update_edge
  (update_edge (update_edge (update_edge (update_edge (update_edge (update_edge
    [] 0 1 (30, 10)) 1 0 (10, 30))
    1 2 (10, 10)) 2 1 (10, 10))
    2 5 (30, 5)) 2 5 (5, 30))
    1 3 (30, 8)) 3 1 (8, 30))
    3 4 (30, 6)) 4 3 (6, 30))
    4 2 (30, 18)) 2 4 (18, 30)

/-- C6: on the literal graph of test scenario 6 the effective send capacity
`2 → 5` is `0` (there is no reverse edge `5 → 2`), so node `5` is
unreachable at threshold `25` and `get_route(0, 5, 25)` returns `None` —
not `Some(([0,1,3,4,2,5], 30))` as the test asserts. -/
theorem test_get_route_literal_eval :
    get_send_capacity g6 2 5 = 0 ∧
    get_route g6 0 5 25 = some none ∧
    get_route g6 0 5 25 ≠ some (some ([0, 1, 3, 4, 2, 5], 30)) :=
  ⟨by decide, by decide, by decide⟩

/-! ## Keep-alive channel (`components/keepalive/src/keepalive.rs`)

The event loop `inner_keepalive_loop` is modelled as a step function on the
pair of counters it maintains, driven by the event stream it selects over.
Frames are modelled as `KaMessage` values directly (the serialization layer
`proto::keepalive::serialize` is external to the provided sources and
assumed lossless, so `deserialize` never fails here); sink sends are
modelled as always succeeding. -/

inductive KaMessage
  | keepAlive
  | message (bytes : List Nat)
deriving DecidableEq

inductive KeepAliveEvent
  | timerTick
  | timerClosed
  | remoteChannelClosed
  | userChannelClosed
  | messageFromRemote (m : KaMessage)
  | messageFromUser (bytes : List Nat)
deriving DecidableEq

inductive KeepAliveError
  | timerClosed
  | remoteTimeout
  | sendToUserError
  | sendToRemoteError
  | deserializeError
deriving DecidableEq

structure KaState where
  ticks_to_close : Nat
  ticks_to_send_keepalive : Nat
deriving DecidableEq

inductive KaOut
  | toRemote (m : KaMessage)
  | toUser (bytes : List Nat)
deriving DecidableEq

/-- `halt (some err)` models `return Err(err)`; `halt none` models the
`break` on channel closure (which makes the loop return `Ok(())`). -/
inductive KaStepRes
  | cont (s : KaState)
  | halt (err : Option KeepAliveError)
deriving DecidableEq

/-- One iteration of the `while let` body of `inner_keepalive_loop`. -/
def keepalive_step (keepalive_ticks : Nat) (s : KaState) (e : KeepAliveEvent) :
    KaStepRes × List KaOut :=
  match e with
  | .messageFromRemote ka =>
    match ka with
    | .message bytes =>
      (.cont { s with ticks_to_close := keepalive_ticks }, [.toUser bytes])
    | .keepAlive =>
      (.cont { s with ticks_to_close := keepalive_ticks }, [])
  | .messageFromUser bytes =>
    (.cont { s with ticks_to_send_keepalive := keepalive_ticks / 2 },
      [.toRemote (.message bytes)])
  | .timerTick =>
    if s.ticks_to_close - 1 = 0 then (.halt (some .remoteTimeout), [])
    else if s.ticks_to_send_keepalive - 1 = 0 then
      (.cont { ticks_to_close := s.ticks_to_close - 1,
               ticks_to_send_keepalive := keepalive_ticks / 2 },
        [.toRemote .keepAlive])
    else
      (.cont { ticks_to_close := s.ticks_to_close - 1,
               ticks_to_send_keepalive := s.ticks_to_send_keepalive - 1 }, [])
  | .timerClosed => (.halt (some .timerClosed), [])
  | .remoteChannelClosed => (.halt none, [])
  | .userChannelClosed => (.halt none, [])

/-- The counters at loop entry. -/
def keepalive_init (keepalive_ticks : Nat) : KaState :=
  { ticks_to_close := keepalive_ticks,
    ticks_to_send_keepalive := keepalive_ticks / 2 }

/-- Run the loop over a finite prefix of the event stream, collecting the
emitted frames.  The second component is `none` while the loop is still
waiting for events, `some r` when it has returned with result `r`. -/
def keepalive_run (keepalive_ticks : Nat) (s : KaState) :
    List KeepAliveEvent → List KaOut × Option (Option KeepAliveError)
  | [] => ([], none)
  | e :: es =>
    match keepalive_step keepalive_ticks s e with
    | (.halt r, out) => (out, some r)
    | (.cont s', out) =>
      let rest := keepalive_run keepalive_ticks s' es
      (out ++ rest.1, rest.2)

def ka_is_tick : KeepAliveEvent → Bool
  | .timerTick => true
  | _ => false

def ka_tick_count (es : List KeepAliveEvent) : Nat := es.countP ka_is_tick

def ka_is_tick_or_user : KeepAliveEvent → Bool
  | .timerTick => true
  | .messageFromUser _ => true
  | _ => false

def ka_is_tick_or_remote : KeepAliveEvent → Bool
  | .timerTick => true
  | .messageFromRemote _ => true
  | _ => false

theorem keepalive_run_timeout (T : Nat) :
    ∀ (es : List KeepAliveEvent) (s : KaState),
      (∀ e ∈ es, ka_is_tick_or_user e = true) →
      1 ≤ s.ticks_to_close →
      s.ticks_to_close ≤ ka_tick_count es →
      (keepalive_run T s es).2 = some (some .remoteTimeout) := by
  intro es
  induction es with
  | nil =>
    intro s _ h1 h2
    simp [ka_tick_count] at h2
    omega
  | cons e rest ih =>
    intro s hall h1 h2
    have he := hall e (List.mem_cons_self _ _)
    have hrest : ∀ e' ∈ rest, ka_is_tick_or_user e' = true :=
      fun e' he' => hall e' (List.mem_cons_of_mem _ he')
    cases e with
    | timerTick =>
      have hcount : ka_tick_count (KeepAliveEvent.timerTick :: rest)
          = ka_tick_count rest + 1 := by
        simp [ka_tick_count, List.countP_cons, ka_is_tick]
      rw [hcount] at h2
      by_cases htc : s.ticks_to_close - 1 = 0
      · simp [keepalive_run, keepalive_step, htc]
      · by_cases hts : s.ticks_to_send_keepalive - 1 = 0
        · have h' := ih ⟨s.ticks_to_close - 1, T / 2⟩ hrest (by simp; omega)
            (by simp; omega)
          simp only [keepalive_run, keepalive_step, if_neg htc, if_pos hts]
          simpa using h'
        · have h' := ih ⟨s.ticks_to_close - 1, s.ticks_to_send_keepalive - 1⟩ hrest
            (by simp; omega) (by simp; omega)
          simp only [keepalive_run, keepalive_step, if_neg htc, if_neg hts]
          simpa using h'
    | messageFromUser m =>
      have hcount : ka_tick_count (KeepAliveEvent.messageFromUser m :: rest)
          = ka_tick_count rest := by
        simp [ka_tick_count, List.countP_cons, ka_is_tick]
      rw [hcount] at h2
      have h' := ih ⟨s.ticks_to_close, T / 2⟩ hrest (by simpa using h1)
        (by simp; omega)
      simp only [keepalive_run, keepalive_step]
      simpa using h'
    | timerClosed => simp [ka_is_tick_or_user] at he
    | remoteChannelClosed => simp [ka_is_tick_or_user] at he
    | userChannelClosed => simp [ka_is_tick_or_user] at he
    | messageFromRemote ka => simp [ka_is_tick_or_user] at he

theorem keepalive_run_emits (T : Nat) :
    ∀ (es : List KeepAliveEvent) (s : KaState),
      (∀ e ∈ es, ka_is_tick_or_remote e = true) →
      1 ≤ s.ticks_to_send_keepalive →
      s.ticks_to_send_keepalive < s.ticks_to_close →
      s.ticks_to_send_keepalive ≤ T / 2 →
      s.ticks_to_send_keepalive ≤ ka_tick_count es →
      KaOut.toRemote .keepAlive ∈ (keepalive_run T s es).1 := by
  intro es
  induction es with
  | nil =>
    intro s _ h1 _ _ h4
    simp [ka_tick_count] at h4
    omega
  | cons e rest ih =>
    intro s hall h1 h2 h3 h4
    have he := hall e (List.mem_cons_self _ _)
    have hrest : ∀ e' ∈ rest, ka_is_tick_or_remote e' = true :=
      fun e' he' => hall e' (List.mem_cons_of_mem _ he')
    cases e with
    | timerTick =>
      have hcount : ka_tick_count (KeepAliveEvent.timerTick :: rest)
          = ka_tick_count rest + 1 := by
        simp [ka_tick_count, List.countP_cons, ka_is_tick]
      rw [hcount] at h4
      have htc : ¬(s.ticks_to_close - 1 = 0) := by omega
      by_cases hts : s.ticks_to_send_keepalive - 1 = 0
      · simp [keepalive_run, keepalive_step, htc, hts]
      · have h' := ih ⟨s.ticks_to_close - 1, s.ticks_to_send_keepalive - 1⟩ hrest
          (by simp; omega) (by simp; omega) (by simp; omega) (by simp; omega)
        simp only [keepalive_run, keepalive_step, if_neg htc, if_neg hts]
        simpa using h'
    | messageFromRemote ka =>
      have hcount : ka_tick_count (KeepAliveEvent.messageFromRemote ka :: rest)
          = ka_tick_count rest := by
        simp [ka_tick_count, List.countP_cons, ka_is_tick]
      rw [hcount] at h4
      have hT : s.ticks_to_send_keepalive < T := by omega
      cases ka with
      | message bytes =>
        have h' := ih ⟨T, s.ticks_to_send_keepalive⟩ hrest
          (by simpa using h1) (by simpa using hT) (by simpa using h3)
          (by simpa using h4)
        simp only [keepalive_run, keepalive_step]
        simp only [List.cons_append, List.nil_append]
        exact List.mem_cons_of_mem _ h'
      | keepAlive =>
        have h' := ih ⟨T, s.ticks_to_send_keepalive⟩ hrest
          (by simpa using h1) (by simpa using hT) (by simpa using h3)
          (by simpa using h4)
        simp only [keepalive_run, keepalive_step]
        simpa using h'
    | messageFromUser m => simp [ka_is_tick_or_remote] at he
    | timerClosed => simp [ka_is_tick_or_remote] at he
    | remoteChannelClosed => simp [ka_is_tick_or_remote] at he
    | userChannelClosed => simp [ka_is_tick_or_remote] at he

theorem keepalive_run_no_early (T : Nat) :
    ∀ (es : List KeepAliveEvent) (s : KaState),
      (∀ e ∈ es, ka_is_tick_or_remote e = true) →
      ka_tick_count es < s.ticks_to_send_keepalive →
      KaOut.toRemote .keepAlive ∉ (keepalive_run T s es).1 := by
  intro es
  induction es with
  | nil =>
    intro s _ _
    simp [keepalive_run]
  | cons e rest ih =>
    intro s hall hcnt
    have he := hall e (List.mem_cons_self _ _)
    have hrest : ∀ e' ∈ rest, ka_is_tick_or_remote e' = true :=
      fun e' he' => hall e' (List.mem_cons_of_mem _ he')
    cases e with
    | timerTick =>
      have hcount : ka_tick_count (KeepAliveEvent.timerTick :: rest)
          = ka_tick_count rest + 1 := by
        simp [ka_tick_count, List.countP_cons, ka_is_tick]
      rw [hcount] at hcnt
      have hts : ¬(s.ticks_to_send_keepalive - 1 = 0) := by omega
      by_cases htc : s.ticks_to_close - 1 = 0
      · simp [keepalive_run, keepalive_step, htc]
      · have h' := ih ⟨s.ticks_to_close - 1, s.ticks_to_send_keepalive - 1⟩ hrest
          (by simp; omega)
        simp only [keepalive_run, keepalive_step, if_neg htc, if_neg hts]
        simpa using h'
    | messageFromRemote ka =>
      have hcount : ka_tick_count (KeepAliveEvent.messageFromRemote ka :: rest)
          = ka_tick_count rest := by
        simp [ka_tick_count, List.countP_cons, ka_is_tick]
      rw [hcount] at hcnt
      cases ka with
      | message bytes =>
        have h' := ih ⟨T, s.ticks_to_send_keepalive⟩ hrest (by simpa using hcnt)
        simp only [keepalive_run, keepalive_step]
        simp only [List.cons_append, List.nil_append, List.mem_cons]
        rintro (h | h)
        · exact KaOut.noConfusion h
        · exact h' h
      | keepAlive =>
        have h' := ih ⟨T, s.ticks_to_send_keepalive⟩ hrest (by simpa using hcnt)
        simp only [keepalive_run, keepalive_step]
        simpa using h'
    | messageFromUser m => simp [ka_is_tick_or_remote] at he
    | timerClosed => simp [ka_is_tick_or_remote] at he
    | remoteChannelClosed => simp [ka_is_tick_or_remote] at he
    | userChannelClosed => simp [ka_is_tick_or_remote] at he

/-- C8: keep-alive timing with `keepalive_ticks = 16`.  Over any run whose
events are timer ticks and user messages with at least 16 ticks (no inbound
frame), the loop returns the `RemoteTimeout` error; over any run of timer
ticks and inbound frames with no user-side sends, a `KeepAlive` frame is
emitted to the remote once 8 ticks of send-side inactivity have passed and
never before the 8th tick, so the emission falls within ticks 8 to 15.  The
send countdown starts at `16 / 2 = 8` and is reset to 8 by every user
message and every emitted keep-alive, and the close countdown starts at 16
and is reset to 16 by every inbound frame. -/
theorem inner_keepalive_loop_timing (es1 es2 es3 : List KeepAliveEvent)
    (h1 : ∀ e ∈ es1, ka_is_tick_or_user e = true)
    (hc1 : 16 ≤ ka_tick_count es1)
    (h2 : ∀ e ∈ es2, ka_is_tick_or_remote e = true)
    (hc2 : 8 ≤ ka_tick_count es2)
    (h3 : ∀ e ∈ es3, ka_is_tick_or_remote e = true)
    (hc3 : ka_tick_count es3 < 8) :
    keepalive_init 16 = ⟨16, 8⟩ ∧
    (keepalive_run 16 (keepalive_init 16) es1).2
      = some (some KeepAliveError.remoteTimeout) ∧
    KaOut.toRemote .keepAlive ∈ (keepalive_run 16 (keepalive_init 16) es2).1 ∧
    KaOut.toRemote .keepAlive ∉ (keepalive_run 16 (keepalive_init 16) es3).1 ∧
    (∀ s m, keepalive_step 16 s (.messageFromUser m)
      = (.cont { s with ticks_to_send_keepalive := 8 }, [.toRemote (.message m)])) ∧
    (∀ s ka, (keepalive_step 16 s (.messageFromRemote ka)).1
      = .cont { s with ticks_to_close := 16 }) ∧
    (∀ s, s.ticks_to_send_keepalive = 1 → 2 ≤ s.ticks_to_close →
      keepalive_step 16 s .timerTick
        = (.cont ⟨s.ticks_to_close - 1, 8⟩, [.toRemote .keepAlive])) := by
  refine ⟨rfl, ?_, ?_, ?_, ?_, ?_, ?_⟩
  · exact keepalive_run_timeout 16 es1 (keepalive_init 16) h1 (by simp [keepalive_init])
      (by simpa [keepalive_init] using hc1)
  · exact keepalive_run_emits 16 es2 (keepalive_init 16) h2 (by simp [keepalive_init])
      (by simp [keepalive_init]) (by simp [keepalive_init])
      (by simpa [keepalive_init] using hc2)
  · exact keepalive_run_no_early 16 es3 (keepalive_init 16) h3
      (by simpa [keepalive_init] using hc3)
  · intro s m; rfl
  · intro s ka; cases ka <;> rfl
  · intro s hts htc
    have h1' : ¬(s.ticks_to_close - 1 = 0) := by omega
    simp [keepalive_step, h1', hts]

/-- Witness for `inner_keepalive_loop_timing`: 16 bare ticks time out, 8
bare ticks produce the keep-alive, 7 do not. -/
theorem inner_keepalive_loop_timing_witness :
    ((∀ e ∈ List.replicate 16 KeepAliveEvent.timerTick, ka_is_tick_or_user e = true) ∧
      16 ≤ ka_tick_count (List.replicate 16 KeepAliveEvent.timerTick) ∧
      (∀ e ∈ List.replicate 8 KeepAliveEvent.timerTick, ka_is_tick_or_remote e = true) ∧
      8 ≤ ka_tick_count (List.replicate 8 KeepAliveEvent.timerTick) ∧
      (∀ e ∈ List.replicate 7 KeepAliveEvent.timerTick, ka_is_tick_or_remote e = true) ∧
      ka_tick_count (List.replicate 7 KeepAliveEvent.timerTick) < 8) ∧
    (keepalive_run 16 (keepalive_init 16)
        (List.replicate 16 KeepAliveEvent.timerTick)).2
      = some (some KeepAliveError.remoteTimeout) ∧
    KaOut.toRemote .keepAlive ∈ (keepalive_run 16 (keepalive_init 16)
        (List.replicate 8 KeepAliveEvent.timerTick)).1 ∧
    KaOut.toRemote .keepAlive ∉ (keepalive_run 16 (keepalive_init 16)
        (List.replicate 7 KeepAliveEvent.timerTick)).1 := by
  have h := inner_keepalive_loop_timing
    (List.replicate 16 KeepAliveEvent.timerTick)
    (List.replicate 8 KeepAliveEvent.timerTick)
    (List.replicate 7 KeepAliveEvent.timerTick)
    (by decide) (by decide) (by decide) (by decide) (by decide) (by decide)
  exact ⟨⟨by decide, by decide, by decide, by decide, by decide, by decide⟩,
    h.2.1, h.2.2.1, h.2.2.2.1⟩

/-! ## Verifier construction (`components/index_server/src/verifier.rs`) -/

/-- `Modelled from the spec:` `HashClock` lives in
`components/index_server/src/hash_clock.rs`, which is not among the
provided sources.  Per the spec it keeps a bounded history of
`ticks_to_live` ticks; only the constructor argument is relevant here. -/
structure HashClock where
  ticks_to_live : Nat
deriving DecidableEq

def HashClock.new (ticks_to_live : Nat) : HashClock := ⟨ticks_to_live⟩

/-- `Modelled from the spec:` `RatchetPool` lives in
`components/index_server/src/ratchet.rs`, which is not among the provided
sources.  Per the spec a ratchet is forgotten after `ticks_to_live` ticks
without an update; only the constructor argument is relevant here. -/
structure RatchetPool where
  ticks_to_live : Nat
deriving DecidableEq

def RatchetPool.new (ticks_to_live : Nat) : RatchetPool := ⟨ticks_to_live⟩

structure Verifier where
  hash_clock : HashClock
  ratchet_pool : RatchetPool
deriving DecidableEq

/-- `Verifier::new`: `assert!(ticks_to_live > 0)` (modelled as `none` on
panic), then both members are built with the same `ticks_to_live`. -/
def Verifier.new (ticks_to_live : Nat) : Option Verifier :=
  if ticks_to_live > 0 then
    some { hash_clock := HashClock.new ticks_to_live,
           ratchet_pool := RatchetPool.new ticks_to_live }
  else none

/-- C9: `Verifier::new(ticks_to_live)` panics exactly when
`ticks_to_live = 0`, and otherwise returns a verifier whose hash clock and
ratchet pool both carry that same `ticks_to_live`. -/
theorem verifier_new_spec (ticks_to_live : Nat) :
    (Verifier.new ticks_to_live = none ↔ ticks_to_live = 0) ∧
    (∀ v, Verifier.new ticks_to_live = some v →
      v.hash_clock.ticks_to_live = ticks_to_live ∧
      v.ratchet_pool.ticks_to_live = ticks_to_live) := by
  constructor
  · constructor
    · intro h
      by_contra hne
      have hpos : ticks_to_live > 0 := Nat.pos_of_ne_zero hne
      simp [Verifier.new, hpos] at h
    · intro h
      subst h
      simp [Verifier.new]
  · intro v hv
    unfold Verifier.new at hv
    by_cases hpos : ticks_to_live > 0
    · rw [if_pos hpos] at hv
      injection hv with hv
      subst hv
      exact ⟨rfl, rfl⟩
    · rw [if_neg hpos] at hv
      exact Option.noConfusion hv

/-- Witness for `verifier_new_spec` at the concrete input `3`. -/
theorem verifier_new_spec_witness :
    Verifier.new 3 = some ⟨⟨3⟩, ⟨3⟩⟩ ∧
    ((Verifier.new 3 = none ↔ (3 : Nat) = 0) ∧
      (∀ v, Verifier.new 3 = some v →
        v.hash_clock.ticks_to_live = 3 ∧ v.ratchet_pool.ticks_to_live = 3)) :=
  ⟨by decide, verifier_new_spec 3⟩

/-! ## Funder / messenger handler (`src/funder/handler/handle_friend.rs`,
`src/funder/handler/mod.rs`)

`PublicKey`, `Uid`, `ChannelToken` and random values are opaque byte
identifiers in the source, modelled as `Nat`.  `u64` quantities are `Nat`
with explicit clamping where the source clamps; `i64` balances are `Int`.
The handler's `expect`/`unwrap` panics and the aborts of `BigUint`
arithmetic (subtraction underflow, division by zero) are modelled as
`none`. -/

abbrev PublicKey := Nat
abbrev Uid := Nat
abbrev ChannelToken := Nat

def u64Max : Nat := 2 ^ 64 - 1

/-- `u64::checked_sub` / `BigUint` subtraction (which aborts on
underflow). -/
def checked_sub (a b : Nat) : Option Nat :=
  if b ≤ a then some (a - b) else none

/-- `usize::checked_add`; index arithmetic never overflows in the model. -/
def checked_add (a b : Nat) : Option Nat := some (a + b)

/-- `BigUint::to_u64`. -/
def toU64 (n : Nat) : Option Nat := if n < 2 ^ 64 then some n else none

/-- `Ratio` (types module): `One` or a `u64` numerator of `num / 2^64`. -/
inductive Ratio
  | one
  | numerator (num : Nat)
deriving DecidableEq

structure FunderFreezeLink where
  shared_credits : Nat
  usable_ratio : Ratio
deriving DecidableEq

structure RequestSendMessage where
  request_id : Uid
  route : List PublicKey
  request_content : List Nat
  max_response_len : Nat
  processing_fee_proposal : Nat
  freeze_links : List FunderFreezeLink
deriving DecidableEq

structure ResponseSendMessage where
  request_id : Uid
  rand_nonce : Nat
  processing_fee_collected : Nat
  response_content : List Nat
  signature : Nat
deriving DecidableEq

structure RandNonceSignature where
  rand_nonce : Nat
  signature : Nat
deriving DecidableEq

structure FailureSendMessage where
  request_id : Uid
  reporting_public_key : PublicKey
  rand_nonce_signatures : List RandNonceSignature
deriving DecidableEq

/-- `Modelled from the spec:` `PendingFriendRequest` (types module, not
under src/): the immutable record of a pending request — the request data
without its freeze links. -/
structure PendingFriendRequest where
  request_id : Uid
  route : List PublicKey
  request_content : List Nat
  max_response_len : Nat
  processing_fee_proposal : Nat
deriving DecidableEq

/-- `Modelled from the spec:` `RequestSendMessage::create_pending_request`
(types module, not under src/). -/
def RequestSendMessage.create_pending_request (r : RequestSendMessage) :
    Option PendingFriendRequest :=
  some { request_id := r.request_id, route := r.route,
         request_content := r.request_content,
         max_response_len := r.max_response_len,
         processing_fee_proposal := r.processing_fee_proposal }

inductive FriendTcOp
  | setRemoteMaxDebt (v : Nat)
  | enableRequests (send_price : Nat)
  | disableRequests
  | requestSendMessage (r : RequestSendMessage)
  | responseSendMessage (r : ResponseSendMessage)
  | failureSendMessage (f : FailureSendMessage)
deriving DecidableEq

inductive PkPairPosition
  | dest
  | notDest (i : Nat)
deriving DecidableEq

/-- `Modelled from the spec:` `FriendsRoute::pk_index` (types module, not
under src/): the index of the first occurrence of `pk` on the route. -/
def pk_index (route : List PublicKey) (pk : PublicKey) : Option Nat :=
  route.findIdx? (fun x => decide (x = pk))

/-- `Modelled from the spec:` `FriendsRoute::pk_by_index` (types module,
not under src/). -/
def pk_by_index (route : List PublicKey) (i : Nat) : Option PublicKey :=
  route.get? i

/-- `Modelled from the spec:` `FriendsRoute::find_pk_pair` (types module,
not under src/): position of the first adjacent pair `(a, b)` on the route;
`Dest` when `b` is the route's last node, otherwise `NotDest i` with `i` the
index of `a`. -/
def find_pk_pair (route : List PublicKey) (a b : PublicKey) :
    Option PkPairPosition :=
  match (hops route).findIdx? (fun xy => decide (xy = (a, b))) with
  | none => none
  | some i => if i + 2 = route.length then some .dest else some (.notDest i)

/-- `Modelled from the spec:` the freeze guard (`freeze_guard` module, not
under src/): process-wide accounting of credits frozen by in-flight pending
requests, modelled as the list of accounted pending requests. -/
structure FreezeGuard where
  frozen : List PendingFriendRequest
deriving DecidableEq

def FreezeGuard.add_frozen_credit (fg : FreezeGuard)
    (p : PendingFriendRequest) : FreezeGuard :=
  ⟨fg.frozen ++ [p]⟩

def FreezeGuard.sub_frozen_credit (fg : FreezeGuard)
    (p : PendingFriendRequest) : FreezeGuard :=
  ⟨fg.frozen.erase p⟩

/-- `Modelled from the spec:` the canonical credit-to-freeze formula
embedded in the op (spec 4.C); the exact fee encoding is not in the
provided sources. -/
def credit_to_freeze (p : PendingFriendRequest) : Nat :=
  p.processing_fee_proposal + p.max_response_len

/-- Credits currently frozen whose route passes through the directed
hop `pair`. -/
def frozen_credit_for_pair (fg : FreezeGuard) (pair : Nat × Nat) : Nat :=
  ((fg.frozen.filter (fun q => decide (pair ∈ hops q.route))).map
    credit_to_freeze).sum

def ratio_mul (credits : Nat) (r : Ratio) : Nat :=
  match r with
  | .one => credits
  | .numerator num => credits * num / 2 ^ 64

/-- `Modelled from the spec:` `verify_freezing_links` (freeze guard module,
not under src/): every freeze link of the request, paired with the
corresponding hop of the route, must still cover the already-frozen credits
of that hop plus this request's credit under
`shared_credits * usable_ratio`. -/
def FreezeGuard.verify_freezing_links (fg : FreezeGuard)
    (r : RequestSendMessage) : Option Unit :=
  match r.create_pending_request with
  | none => none
  | some pending =>
    if (r.freeze_links.zip (hops r.route)).all (fun lp =>
        decide (frozen_credit_for_pair fg lp.2 + credit_to_freeze pending
          ≤ ratio_mul lp.1.shared_credits lp.1.usable_ratio))
    then some () else none

/-! ### Token-channel, slot, friend and messenger state -/

structure ResetTerms where
  current_token : ChannelToken
  balance_for_reset : Int
deriving DecidableEq

inductive IncomingInconsistency
  | empty
  | incoming (rt : ResetTerms)
deriving DecidableEq

inductive OutgoingInconsistency
  | empty
  | sent
  | acked
deriving DecidableEq

structure InconsistencyStatus where
  incoming : IncomingInconsistency
  outgoing : OutgoingInconsistency
deriving DecidableEq

/-- `Modelled from the spec:` the token-channel ledger state (token_channel
module, not under src/), spec §3. -/
structure TokenChannelState where
  balance : Int
  local_max_debt : Nat
  remote_max_debt : Nat
  local_pending_debt : Nat
  remote_pending_debt : Nat
  pending_local_requests : List (Uid × PendingFriendRequest)
  pending_remote_requests : List (Uid × PendingFriendRequest)
  local_send_price : Option Nat
deriving DecidableEq

structure FriendMoveTokenInner where
  operations : List FriendTcOp
  old_token : ChannelToken
  rand_nonce : Nat
deriving DecidableEq

inductive MoveTokenDirection
  | incoming (new_token : ChannelToken)
  | outgoing (inner : FriendMoveTokenInner)
deriving DecidableEq

/-- `Modelled from the spec:` the signed fingerprint of an outgoing move
token, bound to `old_token ∥ operations ∥ rand_nonce` (spec §3);
cryptography is out of scope, modelled as a deterministic injective
encoding of the inner data it signs over. -/
def move_token_new_token (inner : FriendMoveTokenInner) : ChannelToken :=
  2 * Nat.pair inner.old_token inner.rand_nonce + 2

/-- `Modelled from the spec:` the directional token channel (directional
module, not under src/). -/
structure DirectionalState where
  token_channel : TokenChannelState
  direction : MoveTokenDirection
  new_token : ChannelToken
  token_channel_index : Nat
deriving DecidableEq

/-- `Modelled from the spec:` `calc_channel_reset_token` (directional
module, not under src/): a deterministic token derived from the current
`new_token` (spec 4.D: `H(new_token ∥ "RESET")`), modelled with an
injective pairing offset away from plain tokens. -/
def calc_channel_reset_token (d : DirectionalState) (channel_index : Nat) :
    ChannelToken :=
  2 * Nat.pair d.new_token channel_index + 1

/-- `Modelled from the spec:` `balance_for_reset` (directional module, not
under src/): derived deterministically from the current ledger balance. -/
def balance_for_reset (d : DirectionalState) : Int :=
  d.token_channel.balance

structure FriendMoveToken where
  token_channel_index : Nat
  operations : List FriendTcOp
  old_token : ChannelToken
  rand_nonce : Nat
  new_token : ChannelToken
deriving DecidableEq

/-- `TokenChannelSlot` (slot module, not under src/), modelled from the
spec: directional channel plus per-slot queues and statuses. -/
structure TokenChannelSlot where
  directional : DirectionalState
  pending_operations : List FriendTcOp
  inconsistency_status : InconsistencyStatus
  wanted_remote_max_debt : Nat
  wanted_local_send_price : Option Nat
  opt_pending_send_funds_id : Option Uid
deriving DecidableEq

/-- `FriendState` (friend module, not under src/), modelled from the spec.
`trust` models `get_trust()` — the friend's trust (its wanted remote max
debt) as an unbounded `BigUint`. -/
structure FriendState where
  local_max_channels : Nat
  remote_max_channels : Nat
  tc_slots : List (Nat × TokenChannelSlot)
  pending_requests : List RequestSendMessage
  trust : Nat
deriving DecidableEq

structure MessengerState where
  local_public_key : PublicKey
  friends : List (PublicKey × FriendState)
deriving DecidableEq

/-- `Modelled from the spec:` `get_total_trust` (state module, not under
src/): the total trust across all friends. -/
def MessengerState.get_total_trust (st : MessengerState) : Nat :=
  (st.friends.map (fun kv => kv.2.trust)).sum

/-! ### Mutations (`MessengerMutation` and its application)

The mutation constructors are the ones `handle_friend.rs` builds; their
semantics (`state.mutate`) live in the state/friend/slot modules, which are
not under src/, and are modelled from the spec and from the mutation
names. -/

inductive DirectionalMutation
  | tcMutation (tc : TokenChannelState)
  | setDirection (dir : MoveTokenDirection)
deriving DecidableEq

inductive SlotMutation
  | pushBackPendingOperation (op : FriendTcOp)
  | popFrontPendingOperation
  | setIncomingInconsistency (s : IncomingInconsistency)
  | setOutgoingInconsistency (s : OutgoingInconsistency)
  | directionalMutation (m : DirectionalMutation)
  | remoteReset
  | setPendingSendFundsId (u : Option Uid)
deriving DecidableEq

inductive FriendMutation
  | slotMutation (idx : Nat) (m : SlotMutation)
  | pushBackPendingRequest (r : RequestSendMessage)
  | popFrontPendingRequest
  | setRemoteMaxChannels (n : Nat)
deriving DecidableEq

inductive MessengerMutation
  | friendMutation (pk : PublicKey) (m : FriendMutation)
deriving DecidableEq

def apply_directional_mutation (d : DirectionalState) :
    DirectionalMutation → DirectionalState
  | .tcMutation tc => { d with token_channel := tc }
  | .setDirection dir =>
    match dir with
    | .incoming tok => { d with direction := dir, new_token := tok }
    | .outgoing inner =>
      { d with direction := dir, new_token := move_token_new_token inner }

/-- `Modelled from the spec:` `RemoteReset` (spec 4.G, "Channel reset"):
set `balance := balance_for_reset`, clear the pending tables and debts, and
become `Outgoing` over the reset token. -/
def apply_remote_reset (d : DirectionalState) : DirectionalState :=
  let inner : FriendMoveTokenInner :=
    ⟨[], calc_channel_reset_token d d.token_channel_index, 0⟩
  { d with
    token_channel := { d.token_channel with
      balance := balance_for_reset d,
      local_pending_debt := 0, remote_pending_debt := 0,
      pending_local_requests := [], pending_remote_requests := [] },
    direction := .outgoing inner,
    new_token := move_token_new_token inner }

def apply_slot_mutation (slot : TokenChannelSlot) :
    SlotMutation → TokenChannelSlot
  | .pushBackPendingOperation op =>
    { slot with pending_operations := slot.pending_operations ++ [op] }
  | .popFrontPendingOperation =>
    { slot with pending_operations := slot.pending_operations.tail }
  | .setIncomingInconsistency s =>
    { slot with inconsistency_status :=
      { slot.inconsistency_status with incoming := s } }
  | .setOutgoingInconsistency s =>
    { slot with inconsistency_status :=
      { slot.inconsistency_status with outgoing := s } }
  | .directionalMutation m =>
    { slot with directional := apply_directional_mutation slot.directional m }
  | .remoteReset =>
    { slot with directional := apply_remote_reset slot.directional }
  | .setPendingSendFundsId u =>
    { slot with opt_pending_send_funds_id := u }

def apply_friend_mutation (f : FriendState) :
    FriendMutation → Option FriendState
  | .slotMutation idx m =>
    (modifyA f.tc_slots idx (fun s => apply_slot_mutation s m)).map
      (fun ts => { f with tc_slots := ts })
  | .pushBackPendingRequest r =>
    some { f with pending_requests := f.pending_requests ++ [r] }
  | .popFrontPendingRequest =>
    some { f with pending_requests := f.pending_requests.tail }
  | .setRemoteMaxChannels n =>
    some { f with remote_max_channels := n }

def MessengerState.mutate (st : MessengerState) (m : MessengerMutation) :
    Option MessengerState :=
  match m with
  | .friendMutation pk fm =>
    match lookupA st.friends pk with
    | none => none
    | some f =>
      match apply_friend_mutation f fm with
      | none => none
      | some f' => some { st with friends := insertA st.friends pk f' }

/-! ### Tasks and the mutable handler -/

structure FriendInconsistencyError where
  opt_ack : Option ChannelToken
  token_channel_index : Nat
  current_token : ChannelToken
  balance_for_reset : Int
deriving DecidableEq

structure FriendSetMaxTokenChannels where
  max_token_channels : Nat
deriving DecidableEq

inductive FriendMessage
  | moveToken (mt : FriendMoveToken)
  | inconsistencyError (e : FriendInconsistencyError)
  | setMaxTokenChannels (m : FriendSetMaxTokenChannels)
deriving DecidableEq

structure RequestReceived where
  request_id : Uid
  route : List PublicKey
  request_content : List Nat
  max_response_len : Nat
  processing_fee_proposal : Nat
deriving DecidableEq

structure ResponseReceived where
  request_id : Uid
  processing_fee_collected : Nat
  response_content : List Nat
deriving DecidableEq

structure FailureReceived where
  request_id : Uid
  reporting_public_key : PublicKey
deriving DecidableEq

inductive CrypterMessage
  | requestReceived (r : RequestReceived)
  | responseReceived (r : ResponseReceived)
  | failureReceived (f : FailureReceived)
deriving DecidableEq

inductive ReceiveMoveTokenError
  | chainInconsistent
  | invalidTransaction
  | tokenNotOwned
deriving DecidableEq

inductive AppManagerMessage
  | receiveMoveTokenError (e : ReceiveMoveTokenError)
deriving DecidableEq

structure SendPayment where
  friend_public_key : PublicKey
  channel_index : Nat
  payment_id : Uid
  payment : Nat
deriving DecidableEq

inductive MessengerTask
  | appManagerMessage (m : AppManagerMessage)
  | sendPayment (p : SendPayment)
  | friendMessage (m : FriendMessage)
  | crypterMessage (m : CrypterMessage)
deriving DecidableEq

/-- `MutableMessengerHandler` (`mod.rs`): authoritative state plus the
cache's freeze guard, the recorded mutations and the produced tasks. -/
structure Handler where
  state : MessengerState
  freeze_guard : FreezeGuard
  mutations : List MessengerMutation
  messenger_tasks : List MessengerTask
deriving DecidableEq

/-- `apply_mutation`: apply to the state and also remember the mutation. -/
def Handler.apply_mutation (h : Handler) (m : MessengerMutation) :
    Option Handler :=
  (h.state.mutate m).map (fun st =>
    { h with state := st, mutations := h.mutations ++ [m] })

def Handler.add_task (h : Handler) (t : MessengerTask) : Handler :=
  { h with messenger_tasks := h.messenger_tasks ++ [t] }

/-- `get_token_channel_slot` (both `expect`s modelled by the `Option`). -/
def Handler.get_token_channel_slot (h : Handler) (friend_public_key : PublicKey)
    (channel_index : Nat) : Option TokenChannelSlot :=
  (lookupA h.state.friends friend_public_key).bind
    (fun f => lookupA f.tc_slots channel_index)

/-! ### `handle_friend.rs` helper functions -/

/-- `find_token_channel_by_request_id`, translated as written: it returns
the first channel whose `pending_remote_requests` does **not** contain the
request id (`if pending_remote_requests.get(request_id).is_none() { return
Some(*channel_index) }`). -/
def find_token_channel_by_request_id (friend : FriendState)
    (request_id : Uid) : Option Nat :=
  friend.tc_slots.findSome? (fun cs =>
    if lookupA cs.2.directional.token_channel.pending_remote_requests request_id
        = none
    then some cs.1 else none)

/-- `find_request_origin`: the first friend for which
`find_token_channel_by_request_id` reports a channel. -/
def find_request_origin (st : MessengerState) (request_id : Uid) :
    Option (PublicKey × Nat) :=
  st.friends.findSome? (fun kf =>
    (find_token_channel_by_request_id kf.2 request_id).map
      (fun ci => (kf.1, ci)))

/-- `create_failure_message`: we are the `reporting_public_key`; the random
nonce and identity-service signature are cryptography, out of scope,
modelled as deterministic placeholder values. -/
def create_failure_message (local_public_key : PublicKey)
    (pending : PendingFriendRequest) : FailureSendMessage :=
  { request_id := pending.request_id,
    reporting_public_key := local_public_key,
    rand_nonce_signatures := [{ rand_nonce := 0, signature := 0 }] }

/-- `failure_message_add_signature` (nonce and signature as above). -/
def failure_message_add_signature (f : FailureSendMessage) :
    FailureSendMessage :=
  { f with rand_nonce_signatures := f.rand_nonce_signatures ++ [⟨0, 0⟩] }

/-- `cancel_local_pending_requests`: for every pending local request of the
reset channel, look up its origin; `None` (we are considered the origin) is
skipped with `continue`, otherwise a signed failure op is queued to the
origin's slot. -/
def cancel_local_pending_requests (h : Handler)
    (friend_public_key : PublicKey) (channel_index : Nat) : Option Handler :=
  match lookupA h.state.friends friend_public_key with
  | none => none
  | some friend =>
    match lookupA friend.tc_slots channel_index with
    | none => none
    | some slot =>
      let pending := slot.directional.token_channel.pending_local_requests
      let local_public_key := h.state.local_public_key
      pending.foldlM (fun hh rp =>
        match find_request_origin hh.state rp.1 with
        | none => some hh
        | some (origin_public_key, origin_channel_index) =>
          let fm := create_failure_message local_public_key rp.2
          hh.apply_mutation (.friendMutation origin_public_key
            (.slotMutation origin_channel_index
              (.pushBackPendingOperation (.failureSendMessage fm))))) h

/-- `check_reset_channel`: if the incoming `new_token` equals our derived
reset token, cancel local pending requests and apply `RemoteReset`. -/
def check_reset_channel (h : Handler) (friend_public_key : PublicKey)
    (channel_index : Nat) (new_token : ChannelToken) : Option Handler :=
  match h.get_token_channel_slot friend_public_key channel_index with
  | none => none
  | some slot =>
    let reset_token := calc_channel_reset_token slot.directional channel_index
    if new_token = reset_token then
      match cancel_local_pending_requests h friend_public_key channel_index with
      | none => none
      | some h' =>
        h'.apply_mutation (.friendMutation friend_public_key
          (.slotMutation channel_index .remoteReset))
    else some h

def punt_request_to_crypter (h : Handler) (r : RequestSendMessage) : Handler :=
  h.add_task (.crypterMessage (.requestReceived
    { request_id := r.request_id, route := r.route,
      request_content := r.request_content,
      max_response_len := r.max_response_len,
      processing_fee_proposal := r.processing_fee_proposal }))

/-- `reply_with_failure`: queue a signed failure for the request onto the
remote friend's slot. -/
def reply_with_failure (h : Handler) (remote_public_key : PublicKey)
    (channel_index : Nat) (r : RequestSendMessage) : Option Handler := do
  let pending ← r.create_pending_request
  let fm := create_failure_message h.state.local_public_key pending
  h.apply_mutation (.friendMutation remote_public_key
    (.slotMutation channel_index
      (.pushBackPendingOperation (.failureSendMessage fm))))

/-- `forward_request`, translated as written.  Note two facts preserved
from the source: `next_pk` is read with `pk_by_index(prev_index)` — the
previous hop — exactly like `prev_pk`; and `two_pow_64` is
`BigUint::new(vec![0x1, 0x0, 0x0])`, whose little-endian `u32` digits
denote the value 1 (2^64 would be `vec![0, 0, 0x1]`). -/
def forward_request (h : Handler) (req : RequestSendMessage) :
    Option Handler := do
  let index ← pk_index req.route h.state.local_public_key
  let prev_index ← checked_sub index 1
  let _next_index ← checked_add index 1
  let prev_pk ← pk_by_index req.route prev_index
  let next_pk ← pk_by_index req.route prev_index
  let prev_friend ← lookupA h.state.friends prev_pk
  let next_friend ← lookupA h.state.friends next_pk
  let total_trust := h.state.get_total_trust
  let prev_trust := prev_friend.trust
  let forward_trust := next_friend.trust
  let two_pow_64 : Nat := 1
  let denom ← checked_sub total_trust prev_trust
  let numerator ← if denom = 0 then none
    else some (two_pow_64 * forward_trust / denom)
  let usable_ratio := match toU64 numerator with
    | some num => Ratio.numerator num
    | none => Ratio.one
  let shared_credits := (toU64 prev_trust).getD u64Max
  let req' := { req with freeze_links :=
    req.freeze_links ++ [⟨shared_credits, usable_ratio⟩] }
  h.apply_mutation (.friendMutation next_pk (.pushBackPendingRequest req'))

/-- `handle_request_send_msg`: account the frozen credit, locate ourselves
on the route; if we are the destination punt to the crypter, otherwise
(after the next-friend existence check) verify the freeze chain and either
forward or reply with failure. -/
def handle_request_send_msg (h : Handler) (remote_public_key : PublicKey)
    (channel_index : Nat) (request_send_msg : RequestSendMessage) :
    Option Handler := do
  let pending0 ← request_send_msg.create_pending_request
  let h := { h with freeze_guard := h.freeze_guard.add_frozen_credit pending0 }
  let pk_pair ← find_pk_pair request_send_msg.route remote_public_key
    h.state.local_public_key
  match pk_pair with
  | .dest => some (punt_request_to_crypter h request_send_msg)
  | .notDest i => do
    let index ← checked_add i 1
    let next_index ← checked_add index 1
    let next_public_key ← pk_by_index request_send_msg.route next_index
    let h ← if lookupA h.state.friends next_public_key = none then
        reply_with_failure h remote_public_key channel_index request_send_msg
      else some h
    match h.freeze_guard.verify_freezing_links request_send_msg with
    | some _ => forward_request h request_send_msg
    | none =>
      reply_with_failure h remote_public_key channel_index request_send_msg

/-- `handle_response_send_msg`: release the frozen credit; if no origin is
found we are the origin and the response is punted to the crypter,
otherwise the response op is queued to the reported origin's slot. -/
def handle_response_send_msg (h : Handler) (_remote_public_key : PublicKey)
    (_channel_index : Nat) (response_send_msg : ResponseSendMessage)
    (pending_request : PendingFriendRequest) : Option Handler :=
  let h := { h with freeze_guard :=
    h.freeze_guard.sub_frozen_credit pending_request }
  match find_request_origin h.state response_send_msg.request_id with
  | none =>
    some (h.add_task (.crypterMessage (.responseReceived
      { request_id := response_send_msg.request_id,
        processing_fee_collected := response_send_msg.processing_fee_collected,
        response_content := response_send_msg.response_content })))
  | some (friend_public_key, ci) =>
    h.apply_mutation (.friendMutation friend_public_key
      (.slotMutation ci
        (.pushBackPendingOperation (.responseSendMessage response_send_msg))))

/-- `handle_failure_send_msg`. -/
def handle_failure_send_msg (h : Handler) (_remote_public_key : PublicKey)
    (_channel_index : Nat) (failure_send_msg : FailureSendMessage)
    (pending_request : PendingFriendRequest) : Option Handler :=
  let h := { h with freeze_guard :=
    h.freeze_guard.sub_frozen_credit pending_request }
  match find_request_origin h.state failure_send_msg.request_id with
  | none =>
    some (h.add_task (.crypterMessage (.failureReceived
      { request_id := failure_send_msg.request_id,
        reporting_public_key := failure_send_msg.reporting_public_key })))
  | some (friend_public_key, ci) =>
    let fm := failure_message_add_signature failure_send_msg
    h.apply_mutation (.friendMutation friend_public_key
      (.slotMutation ci
        (.pushBackPendingOperation (.failureSendMessage fm))))

/-! ### Receiving a move token (directional / token_channel modules,
modelled from the spec) -/

structure IncomingResponseSendMessage where
  pending_request : PendingFriendRequest
  incoming_response : ResponseSendMessage
deriving DecidableEq

structure IncomingFailureSendMessage where
  pending_request : PendingFriendRequest
  incoming_failure : FailureSendMessage
deriving DecidableEq

inductive IncomingMessage
  | request (r : RequestSendMessage)
  | response (r : IncomingResponseSendMessage)
  | failure (f : IncomingFailureSendMessage)
deriving DecidableEq

/-- Remove the binding of `key` (first occurrence). -/
def eraseA {α β : Type} [DecidableEq α] : List (α × β) → α → List (α × β)
  | [], _ => []
  | (k, v) :: rest, key =>
    if k = key then rest else (k, v) :: eraseA rest key

/-- `Modelled from the spec:` deterministic ledger apply of one incoming
operation (spec 4.C; token_channel module, not under src/).  Signature
verification is cryptography, out of scope, modelled as accepting. -/
def apply_incoming_op (tc : TokenChannelState) (op : FriendTcOp) :
    Option (TokenChannelState × Option IncomingMessage) :=
  match op with
  | .setRemoteMaxDebt v =>
    if tc.remote_pending_debt ≤ v then
      some ({ tc with remote_max_debt := v }, none)
    else none
  | .enableRequests price =>
    some ({ tc with local_send_price := some price }, none)
  | .disableRequests =>
    some ({ tc with local_send_price := none }, none)
  | .requestSendMessage r =>
    match r.create_pending_request with
    | none => none
    | some pending =>
      let credit := credit_to_freeze pending
      if tc.local_send_price.isSome
          ∧ lookupA tc.pending_remote_requests r.request_id = none
          ∧ tc.balance + ((tc.remote_pending_debt + credit : Nat) : Int)
            ≤ (tc.remote_max_debt : Int) then
        some ({ tc with
          pending_remote_requests :=
            insertA tc.pending_remote_requests r.request_id pending,
          remote_pending_debt := tc.remote_pending_debt + credit },
          some (.request r))
      else none
  | .responseSendMessage resp =>
    match lookupA tc.pending_local_requests resp.request_id with
    | none => none
    | some pending =>
      let credit := credit_to_freeze pending
      some ({ tc with
        pending_local_requests := eraseA tc.pending_local_requests resp.request_id,
        balance := tc.balance - (resp.processing_fee_collected : Int),
        local_pending_debt := tc.local_pending_debt - credit },
        some (.response ⟨pending, resp⟩))
  | .failureSendMessage f =>
    match lookupA tc.pending_local_requests f.request_id with
    | none => none
    | some pending =>
      let credit := credit_to_freeze pending
      if f.reporting_public_key ∈ pending.route then
        some ({ tc with
          pending_local_requests := eraseA tc.pending_local_requests f.request_id,
          local_pending_debt := tc.local_pending_debt - credit },
          some (.failure ⟨pending, f⟩))
      else none

/-- Apply a batch atomically (a failing op rejects the whole batch),
collecting the extracted incoming messages. -/
def apply_incoming_ops (tc : TokenChannelState) (ops : List FriendTcOp) :
    Option (TokenChannelState × List IncomingMessage) :=
  ops.foldlM (fun acc op =>
    (apply_incoming_op acc.1 op).map
      (fun r => (r.1, acc.2 ++ r.2.toList))) (tc, [])

structure MoveTokenReceived where
  incoming_messages : List IncomingMessage
  mutations : List DirectionalMutation
deriving DecidableEq

inductive ReceiveMoveTokenOutput
  | duplicate
  | retransmitOutgoing (outgoing_move_token : FriendMoveToken)
  | received (mtr : MoveTokenReceived)
deriving DecidableEq

/-- `get_outgoing_move_token` (directional module, not under src/),
modelled from the spec. -/
def get_outgoing_move_token (d : DirectionalState) : Option FriendMoveToken :=
  match d.direction with
  | .incoming _ => none
  | .outgoing inner =>
    some { token_channel_index := d.token_channel_index,
           operations := inner.operations, old_token := inner.old_token,
           rand_nonce := inner.rand_nonce, new_token := d.new_token }

/-- `Modelled from the spec:` `simulate_receive_move_token` (directional
module, not under src/), spec 4.D: `Duplicate` when the incoming
`new_token` equals the previously received one; `RetransmitOutgoing` when
we are `Outgoing` and the message's `old_token` matches our previous
incoming token; otherwise the message must chain over our current
`new_token`, and the batch is applied atomically on a cloned ledger. -/
def simulate_receive_move_token (d : DirectionalState)
    (inner : FriendMoveTokenInner) (new_token : ChannelToken) :
    Except ReceiveMoveTokenError ReceiveMoveTokenOutput :=
  if (match d.direction with
      | .incoming last_token => decide (new_token = last_token)
      | .outgoing _ => false) then
    .ok .duplicate
  else if (match d.direction with
      | .outgoing out => decide (inner.old_token = out.old_token)
      | .incoming _ => false) then
    match get_outgoing_move_token d with
    | some mt => .ok (.retransmitOutgoing mt)
    | none => .error .tokenNotOwned
  else if inner.old_token = d.new_token then
    match apply_incoming_ops d.token_channel inner.operations with
    | none => .error .invalidTransaction
    | some (tc', msgs) =>
      .ok (.received ⟨msgs, [.tcMutation tc', .setDirection (.incoming new_token)]⟩)
  else .error .chainInconsistent

/-! ### Composing the outgoing move token -/

/-- `MAX_MOVE_TOKEN_LENGTH = 0x1000`.  The serialized size of an operation
is not computable from the provided sources; the budget is modelled as an
operation count with one unit per op. -/
def max_move_token_ops : Nat := 0x1000

inductive QueueOperationError
  | maxLengthReached
deriving DecidableEq

/-- `Modelled from the spec:` `OutgoingTokenChannel` (token_channel
outgoing module, not under src/): the batch under construction and its
remaining size budget.  The ledger mutations it would return from `done()`
are not modelled (nothing below depends on them). -/
structure OutgoingTokenChannel where
  operations : List FriendTcOp
  remaining_ops : Nat
deriving DecidableEq

/-- `begin_outgoing_move_token`: only the side currently holding the token
as `Incoming` may compose. -/
def begin_outgoing_move_token (d : DirectionalState) (max_ops : Nat) :
    Option OutgoingTokenChannel :=
  match d.direction with
  | .incoming _ => some ⟨[], max_ops⟩
  | .outgoing _ => none

def queue_operation (otc : OutgoingTokenChannel) (op : FriendTcOp) :
    Except QueueOperationError OutgoingTokenChannel :=
  if otc.remaining_ops = 0 then .error .maxLengthReached
  else .ok ⟨otc.operations ++ [op], otc.remaining_ops - 1⟩

/-- The pending-operations drain loop of `queue_outgoing_operations`: each
queued op is matched by a `PopFrontPendingOperation` mutation; a full
budget stops the drain (the `Bool` is `true` when stopped early). -/
def queue_pending_operations :
    Handler → PublicKey → Nat → OutgoingTokenChannel → List FriendTcOp →
      Option (Handler × OutgoingTokenChannel × Bool)
  | h, _, _, otc, [] => some (h, otc, false)
  | h, pk, ci, otc, op :: rest =>
    match queue_operation otc op with
    | .error _ => some (h, otc, true)
    | .ok otc' =>
      match h.apply_mutation (.friendMutation pk
          (.slotMutation ci .popFrontPendingOperation)) with
      | none => none
      | some h' => queue_pending_operations h' pk ci otc' rest

/-- The pending-requests drain loop of `queue_outgoing_operations`. -/
def queue_pending_requests :
    Handler → PublicKey → OutgoingTokenChannel → List RequestSendMessage →
      Option (Handler × OutgoingTokenChannel × Bool)
  | h, _, otc, [] => some (h, otc, false)
  | h, pk, otc, r :: rest =>
    match queue_operation otc (.requestSendMessage r) with
    | .error _ => some (h, otc, true)
    | .ok otc' =>
      match h.apply_mutation (.friendMutation pk .popFrontPendingRequest) with
      | none => none
      | some h' => queue_pending_requests h' pk otc' rest

/-- `queue_outgoing_operations`: wanted remote max debt, wanted local send
price, then pending operations, then pending requests; a
`MaxLengthReached` stops the composition (as the caller treats it). -/
def queue_outgoing_operations (h : Handler) (remote_public_key : PublicKey)
    (channel_index : Nat) (otc : OutgoingTokenChannel) :
    Option (Handler × OutgoingTokenChannel) :=
  match h.get_token_channel_slot remote_public_key channel_index with
  | none => none
  | some slot =>
    let remote_max_debt := slot.directional.token_channel.remote_max_debt
    let step1 := if slot.wanted_remote_max_debt ≠ remote_max_debt then
        queue_operation otc (.setRemoteMaxDebt slot.wanted_remote_max_debt)
      else .ok otc
    match step1 with
    | .error _ => some (h, otc)
    | .ok otc1 =>
      let local_send_price := slot.directional.token_channel.local_send_price
      let step2 := if slot.wanted_local_send_price ≠ local_send_price then
          match slot.wanted_local_send_price with
          | some price => queue_operation otc1 (.enableRequests price)
          | none => queue_operation otc1 .disableRequests
        else .ok otc1
      match step2 with
      | .error _ => some (h, otc1)
      | .ok otc2 =>
        match queue_pending_operations h remote_public_key channel_index otc2
            slot.pending_operations with
        | none => none
        | some (h3, otc3, stopped) =>
          if stopped then some (h3, otc3)
          else
            match lookupA h3.state.friends remote_public_key with
            | none => none
            | some friend =>
              match queue_pending_requests h3 remote_public_key otc3
                  friend.pending_requests with
              | none => none
              | some (h4, otc4, _) => some (h4, otc4)

/-- `RandValue::new(rng)` / `Uid::new(rng)`: randomness is external,
modelled as a fixed value (none of the properties below depend on it). -/
def fresh_rand_value : Nat := 0

/-- `send_through_token_channel`: compose as large a message as possible;
if there is nothing to send and the received batch was empty, send nothing;
otherwise flip the direction to `Outgoing` and emit the move token. -/
def send_through_token_channel (h : Handler) (remote_public_key : PublicKey)
    (channel_index : Nat) (received_empty : Bool) : Option Handler := do
  let slot ← h.get_token_channel_slot remote_public_key channel_index
  let otc ← begin_outgoing_move_token slot.directional max_move_token_ops
  let (h, otc) ← queue_outgoing_operations h remote_public_key channel_index otc
  let operations := otc.operations
  if received_empty && operations.isEmpty then
    some h
  else do
    let slot ← h.get_token_channel_slot remote_public_key channel_index
    let inner : FriendMoveTokenInner :=
      ⟨operations, slot.directional.new_token, fresh_rand_value⟩
    let h ← h.apply_mutation (.friendMutation remote_public_key
      (.slotMutation channel_index
        (.directionalMutation (.setDirection (.outgoing inner)))))
    let slot ← h.get_token_channel_slot remote_public_key channel_index
    let outgoing_move_token ← get_outgoing_move_token slot.directional
    some (h.add_task (.friendMessage (.moveToken outgoing_move_token)))

/-- `initiate_load_funds`: when the balance has drifted into the left
quadrant, emit a `SendPayment` task to rebalance toward the middle. -/
def initiate_load_funds (h : Handler) (remote_public_key : PublicKey)
    (channel_index : Nat) : Option Handler := do
  let slot ← h.get_token_channel_slot remote_public_key channel_index
  if slot.opt_pending_send_funds_id.isSome then
    some h
  else do
    let tcb := slot.directional.token_channel
    let span := tcb.remote_max_debt + tcb.local_max_debt
    let sum : Int := tcb.balance + (tcb.local_max_debt : Int)
    let left_dist ← (if 0 ≤ sum ∧ sum < 2 ^ 64 then some sum.toNat else none)
    if ¬ (left_dist < span / 4) then
      some h
    else do
      let dest_balance : Int :=
        ((tcb.remote_max_debt : Int) - (tcb.local_max_debt : Int)) / 2
      let pay : Int := dest_balance - tcb.balance
      let payment ← (if 0 ≤ pay ∧ pay < 2 ^ 64 then some pay.toNat else none)
      let payment_id : Uid := fresh_rand_value
      let h := h.add_task (.sendPayment
        { friend_public_key := remote_public_key,
          channel_index := channel_index,
          payment_id := payment_id, payment := payment })
      h.apply_mutation (.friendMutation remote_public_key
        (.slotMutation channel_index (.setPendingSendFundsId (some payment_id))))

/-! ### The move-token and inconsistency handlers -/

/-- `clear_inconsistency_status`. -/
def clear_inconsistency_status (h : Handler) (remote_public_key : PublicKey)
    (channel_index : Nat) : Option Handler := do
  let slot ← h.get_token_channel_slot remote_public_key channel_index
  let h ← match slot.inconsistency_status.incoming with
    | .empty => some h
    | _ => h.apply_mutation (.friendMutation remote_public_key
        (.slotMutation channel_index (.setIncomingInconsistency .empty)))
  let slot ← h.get_token_channel_slot remote_public_key channel_index
  match slot.inconsistency_status.outgoing with
  | .empty => some h
  | _ => h.apply_mutation (.friendMutation remote_public_key
      (.slotMutation channel_index (.setOutgoingInconsistency .empty)))

/-- `handle_move_token_output`: process the extracted incoming messages in
order. -/
def handle_move_token_output (h : Handler) (remote_public_key : PublicKey)
    (channel_index : Nat) (incoming_messages : List IncomingMessage) :
    Option Handler :=
  incoming_messages.foldlM (fun hh im =>
    match im with
    | .request r => handle_request_send_msg hh remote_public_key channel_index r
    | .response ir => handle_response_send_msg hh remote_public_key
        channel_index ir.incoming_response ir.pending_request
    | .failure f => handle_failure_send_msg hh remote_public_key
        channel_index f.incoming_failure f.pending_request) h

/-- `handle_move_token_error`: report to the app manager, clear the
incoming inconsistency, send our reset terms and record `Outgoing::Sent`. -/
def handle_move_token_error (h : Handler) (remote_public_key : PublicKey)
    (channel_index : Nat) (e : ReceiveMoveTokenError) : Option Handler := do
  let h := h.add_task (.appManagerMessage (.receiveMoveTokenError e))
  let h ← h.apply_mutation (.friendMutation remote_public_key
    (.slotMutation channel_index (.setIncomingInconsistency .empty)))
  let slot ← h.get_token_channel_slot remote_public_key channel_index
  let current_token := calc_channel_reset_token slot.directional channel_index
  let bfr := balance_for_reset slot.directional
  let h := h.add_task (.friendMessage (.inconsistencyError
    { opt_ack := none, token_channel_index := channel_index,
      current_token := current_token, balance_for_reset := bfr }))
  h.apply_mutation (.friendMutation remote_public_key
    (.slotMutation channel_index (.setOutgoingInconsistency .sent)))

/-- `handle_move_token_success`. -/
def handle_move_token_success (h : Handler) (remote_public_key : PublicKey)
    (channel_index : Nat) (receive_move_token_output : ReceiveMoveTokenOutput)
    (is_empty : Bool) : Option Handler := do
  let h ← clear_inconsistency_status h remote_public_key channel_index
  match receive_move_token_output with
  | .duplicate => some h
  | .retransmitOutgoing outgoing_move_token =>
    some (h.add_task (.friendMessage (.moveToken outgoing_move_token)))
  | .received mtr => do
    let h ← mtr.mutations.foldlM (fun hh dm =>
      hh.apply_mutation (.friendMutation remote_public_key
        (.slotMutation channel_index (.directionalMutation dm)))) h
    let h ← handle_move_token_output h remote_public_key channel_index
      mtr.incoming_messages
    let h ← send_through_token_channel h remote_public_key channel_index
      is_empty
    initiate_load_funds h remote_public_key channel_index

/-- `handle_move_token`: unknown friends are ignored; a channel index at or
above `local_max_channels` is answered with a single `SetMaxTokenChannels`
message and nothing else; otherwise check for a reset and receive. -/
def handle_move_token (h : Handler) (remote_public_key : PublicKey)
    (friend_move_token : FriendMoveToken) : Option Handler :=
  match lookupA h.state.friends remote_public_key with
  | none => some h
  | some friend =>
    if friend.local_max_channels ≤ friend_move_token.token_channel_index then
      some (h.add_task (.friendMessage (.setMaxTokenChannels
        { max_token_channels := friend.local_max_channels })))
    else
      match check_reset_channel h remote_public_key
          friend_move_token.token_channel_index friend_move_token.new_token with
      | none => none
      | some h =>
        match h.get_token_channel_slot remote_public_key
            friend_move_token.token_channel_index with
        | none => none
        | some slot =>
          let is_empty := friend_move_token.operations.isEmpty
          let inner : FriendMoveTokenInner :=
            ⟨friend_move_token.operations, friend_move_token.old_token,
              friend_move_token.rand_nonce⟩
          match simulate_receive_move_token slot.directional inner
              friend_move_token.new_token with
          | .ok out => handle_move_token_success h remote_public_key
              friend_move_token.token_channel_index out is_empty
          | .error e => handle_move_token_error h remote_public_key
              friend_move_token.token_channel_index e

/-- `handle_inconsistency_error`: record the sender's reset terms; on
outgoing `Empty` transition to `Sent` and reply with our reset terms; on
`Sent` with a valid ack transition to `Acked` silently; on `Acked` stay
silent. -/
def handle_inconsistency_error (h : Handler) (remote_public_key : PublicKey)
    (fie : FriendInconsistencyError) : Option Handler := do
  let token_channel_index := fie.token_channel_index
  let incoming := IncomingInconsistency.incoming
    ⟨fie.current_token, fie.balance_for_reset⟩
  let h ← h.apply_mutation (.friendMutation remote_public_key
    (.slotMutation token_channel_index (.setIncomingInconsistency incoming)))
  let slot ← h.get_token_channel_slot remote_public_key token_channel_index
  let reset_token := calc_channel_reset_token slot.directional
    token_channel_index
  let bfr := balance_for_reset slot.directional
  let hs ← (match slot.inconsistency_status.outgoing with
    | .empty =>
      (h.apply_mutation (.friendMutation remote_public_key
        (.slotMutation token_channel_index
          (.setOutgoingInconsistency .sent)))).map (fun h' => (h', true))
    | .sent =>
      let is_ack_valid := match fie.opt_ack with
        | some acked_reset_token => decide (acked_reset_token = reset_token)
        | none => false
      if is_ack_valid then
        (h.apply_mutation (.friendMutation remote_public_key
          (.slotMutation token_channel_index
            (.setOutgoingInconsistency .acked)))).map (fun h' => (h', false))
      else some (h, true)
    | .acked => some (h, false))
  if hs.2 then
    some (hs.1.add_task (.friendMessage (.inconsistencyError
      { opt_ack := some fie.current_token,
        token_channel_index := token_channel_index,
        current_token := reset_token, balance_for_reset := bfr })))
  else some hs.1

/-- `handle_set_max_token_channels`. -/
def handle_set_max_token_channels (h : Handler)
    (remote_public_key : PublicKey) (fsm : FriendSetMaxTokenChannels) :
    Option Handler :=
  h.apply_mutation (.friendMutation remote_public_key
    (.setRemoteMaxChannels fsm.max_token_channels))

inductive IncomingFriendMessage
  | moveToken (mt : FriendMoveToken)
  | inconsistencyError (e : FriendInconsistencyError)
  | setMaxTokenChannels (m : FriendSetMaxTokenChannels)
deriving DecidableEq

/-- `handle_friend_message`. -/
def handle_friend_message (h : Handler) (remote_public_key : PublicKey) :
    IncomingFriendMessage → Option Handler
  | .moveToken mt => handle_move_token h remote_public_key mt
  | .inconsistencyError e => handle_inconsistency_error h remote_public_key e
  | .setMaxTokenChannels m =>
    handle_set_max_token_channels h remote_public_key m

/-! ### Concrete handler fixtures -/

/-- An empty ledger. -/
def tc0 : TokenChannelState := ⟨0, 0, 0, 0, 0, [], [], none⟩

/-- A directional channel holding the token as `Incoming tok`. -/
def dir0 (tci tok : Nat) : DirectionalState := ⟨tc0, .incoming tok, tok, tci⟩

/-- A quiet slot. -/
def slot0 (tci tok : Nat) : TokenChannelSlot :=
  ⟨dir0 tci tok, [], ⟨.empty, .empty⟩, 0, none, none⟩

/-- A friend with one quiet slot (index 0) and the given trust. -/
def friend0 (trust : Nat) : FriendState := ⟨4, 4, [(0, slot0 0 100)], [], trust⟩

/-- C1 fixture: we are node 1; nodes 0 and 2 are friends (trust 1 each). -/
def H1 : Handler := ⟨⟨1, [(0, friend0 1), (2, friend0 1)]⟩, ⟨[]⟩, [], []⟩

/-- A request routed `0 → 1 → 2` with no freeze links yet. -/
def R1 : RequestSendMessage := ⟨10, [0, 1, 2], [], 0, 0, []⟩

/-- C4 fixture: as `H1` plus an off-route friend 3 of trust 10, so
`total_trust = 12`. -/
def H4 : Handler :=
  ⟨⟨1, [(0, friend0 1), (2, friend0 1), (3, friend0 10)]⟩, ⟨[]⟩, [], []⟩

/-- C2/C7/C10 fixture: we are node 9 with a single friend 5. -/
def H2 : Handler := ⟨⟨9, [(5, friend0 1)]⟩, ⟨[]⟩, [], []⟩

/-- A response for request id 7 — an id that no friend's token channel
holds as a pending remote request. -/
def resp2 : ResponseSendMessage := ⟨7, 0, 0, [], 0⟩

def P7 : PendingFriendRequest := ⟨7, [9, 5], [], 0, 0⟩

/-- C3 fixture: friend 2's slot 0 holds one pending local request (id 4)
that we originated (no friend's channel holds id 4 as pending remote). -/
def P4l : PendingFriendRequest := ⟨4, [1, 2, 3], [], 0, 0⟩

def slotC3 : TokenChannelSlot :=
  ⟨⟨⟨0, 0, 0, 0, 0, [(4, P4l)], [], none⟩, .incoming 100, 100, 0⟩, [],
    ⟨.empty, .empty⟩, 0, none, none⟩

def H3 : Handler :=
  ⟨⟨1, [(2, (⟨4, 4, [(0, slotC3)], [], 1⟩ : FriendState))]⟩, ⟨[]⟩, [], []⟩

/-! ### C1 — forwarding an intermediate request -/

/-- C1: at `H1` the relayed request `R1` (route `[0,1,2]`, we are node 1 at
index 1, freeze verification succeeds) does append our freeze link and does
account the frozen credit — but `forward_request` queues the request onto
the `pending_requests` of friend **0**, the previous hop at index `i−1`
(`next_pk` is read with `pk_by_index(prev_index)`), while friend **2**, the
next hop at index `i+1` that the claim names, receives nothing. -/
theorem handle_request_send_msg_misroutes_eval :
    (handle_request_send_msg H1 0 0 R1).map (fun h =>
      ((lookupA h.state.friends 0).map (fun f =>
        f.pending_requests.map (fun r => (r.request_id, r.freeze_links))),
       (lookupA h.state.friends 2).map (fun f => f.pending_requests),
       h.freeze_guard))
    = some (some [(10, [⟨1, Ratio.numerator 1⟩])], some [],
        FreezeGuard.add_frozen_credit ⟨[]⟩ ⟨10, [0, 1, 2], [], 0, 0⟩) ∧
    FreezeGuard.verify_freezing_links H1.freeze_guard R1 = some () := by
  constructor
  · decide
  · decide

/-! ### C2 — processing an incoming response -/

/-- C2: at `H2` the response for request id 7 arrives; no friend's token
channel holds id 7 as a pending remote request, so by the claim we are the
origin and a `ResponseReceived` task should be emitted.  Instead,
`find_token_channel_by_request_id` returns the first slot **not**
containing the id (`is_none()`), so `find_request_origin` reports friend 5
and the handler queues the response op onto friend 5's slot 0, emitting no
task.  The frozen credit is released (`sub_frozen_credit`). -/
theorem handle_response_send_msg_inverted_eval :
    (handle_response_send_msg H2 5 0 resp2 P7).map (fun h =>
      (h.messenger_tasks,
       (h.get_token_channel_slot 5 0).map (fun s => s.pending_operations),
       h.freeze_guard))
    = some ([], some [.responseSendMessage resp2],
        FreezeGuard.sub_frozen_credit ⟨[]⟩ P7) ∧
    find_token_channel_by_request_id (friend0 1) 7 = some 0 := by
  constructor
  · decide
  · decide

/-! ### C3 — cancelling pending local requests on reset -/

/-- C3: at `H3` a channel reset cancels the pending local requests of
friend 2's slot 0.  Request id 4 was originated by the local node (no
friend's channel holds it as a pending remote request), so by the claim a
`ResponseReceived(Failure)` should be emitted to the application — but
`cancel_local_pending_requests` emits no task at all: the inverted
`find_request_origin` reports friend 2 itself as the origin (its slot's
`pending_remote_requests` does not contain id 4) and the synthetic failure
(reporting key = local key 1) is queued back onto friend 2's own slot.
The incoming `new_token` equal to the derived reset token is what triggers
this path in `check_reset_channel`. -/
theorem cancel_local_pending_requests_eval :
    (cancel_local_pending_requests H3 2 0).map (fun h =>
      (h.messenger_tasks,
       (h.get_token_channel_slot 2 0).map (fun s => s.pending_operations)))
      = some ([], some [.failureSendMessage ⟨4, 1, [⟨0, 0⟩]⟩]) ∧
    find_request_origin H3.state 4 = some (2, 0) ∧
    (check_reset_channel H3 2 0
        (calc_channel_reset_token slotC3.directional 0)).map
      (fun h => h.messenger_tasks) = some [] := by
  refine ⟨by decide, by decide, by decide⟩

/-! ### C4 — the freeze-link formula -/

/-- C4 counterexample: at `H4` (trusts: friend 0 ↦ 1, friend 2 ↦ 1,
friend 3 ↦ 10, total 12) forwarding `R1` appends the freeze link
`⟨1, Numerator 0⟩`: the multiplier `BigUint::new(vec![0x1,0x0,0x0])` is the
value 1 (not 2^64), `forward_trust` is read from the **previous** friend,
and the clamp is at `u64`.  The claim's formula
`Numerator(2^128 · remote_max_debt(next) / (total_trust − remote_max_debt(prev)))
= Numerator(2^128 · 1 / 11)` names a different ratio. -/
theorem forward_request_ratio_counterexample :
    (forward_request H4 R1).map (fun h =>
      (lookupA h.state.friends 0).map (fun f =>
        f.pending_requests.map (fun r => r.freeze_links)))
      = some (some [[⟨1, Ratio.numerator 0⟩]]) ∧
    H4.state.get_total_trust = 12 ∧
    (lookupA H4.state.friends 0).map FriendState.trust = some 1 ∧
    (lookupA H4.state.friends 2).map FriendState.trust = some 1 ∧
    Ratio.numerator 0 ≠ Ratio.numerator (2 ^ 128 * 1 / (12 - 1)) := by
  refine ⟨by decide, by decide, by decide, by decide, by decide⟩

/-- C4, amended: the freeze link actually appended by `forward_request`.
With the local node at route index `i ≥ 1`, both `prev_pk` and `next_pk`
are read at index `i − 1` (the previous hop), so with `t` the previous
friend's trust and `T` the total trust, the link is
`shared_credits = min(t, 2^64 − 1)` (via `to_u64().unwrap_or(u64::MAX)`)
and `usable_ratio = Numerator(⌊t / (T − t)⌋)` clamped to `One` above
`u64::MAX` — the multiplier named `two_pow_64` equals 1, not 2^64, and the
forward trust is the previous friend's.  The request is queued to the
friend at index `i − 1`. -/
theorem forward_request_freeze_link_spec
    (h : Handler) (req : RequestSendMessage) (i : Nat) (prev_pk : PublicKey)
    (fprev : FriendState)
    (hidx : pk_index req.route h.state.local_public_key = some i)
    (hi : 1 ≤ i)
    (hprev : pk_by_index req.route (i - 1) = some prev_pk)
    (hfr : lookupA h.state.friends prev_pk = some fprev)
    (hdenom : fprev.trust < h.state.get_total_trust) :
    forward_request h req = h.apply_mutation (.friendMutation prev_pk
      (.pushBackPendingRequest { req with freeze_links := req.freeze_links ++
        [⟨if fprev.trust < 2 ^ 64 then fprev.trust else u64Max,
          if fprev.trust / (h.state.get_total_trust - fprev.trust) < 2 ^ 64
          then Ratio.numerator
            (fprev.trust / (h.state.get_total_trust - fprev.trust))
          else Ratio.one⟩] })) := by
  have hsub : checked_sub i 1 = some (i - 1) := by simp [checked_sub, hi]
  have hsub2 : checked_sub h.state.get_total_trust fprev.trust
      = some (h.state.get_total_trust - fprev.trust) := by
    simp only [checked_sub, if_pos (Nat.le_of_lt hdenom)]
  have hdz : ¬(h.state.get_total_trust - fprev.trust = 0) := by omega
  simp only [forward_request, Option.bind_eq_bind', hidx, hsub, checked_add,
    hprev, hfr, hsub2, Option.some_bind, if_neg hdz, one_mul, toU64,
    Option.getD]
  by_cases h1 : fprev.trust / (h.state.get_total_trust - fprev.trust)
      < 18446744073709551616 <;>
    by_cases h2 : fprev.trust < 18446744073709551616 <;>
      simp [h1, h2, u64Max]

/-- Witness for `forward_request_freeze_link_spec` at `H4` and `R1`. -/
theorem forward_request_freeze_link_spec_witness :
    (pk_index R1.route H4.state.local_public_key = some 1 ∧ (1 : Nat) ≤ 1 ∧
      pk_by_index R1.route (1 - 1) = some 0 ∧
      lookupA H4.state.friends 0 = some (friend0 1) ∧
      (friend0 1).trust < H4.state.get_total_trust) ∧
    forward_request H4 R1 = H4.apply_mutation (.friendMutation 0
      (.pushBackPendingRequest { R1 with freeze_links := R1.freeze_links ++
        [⟨if (friend0 1).trust < 2 ^ 64 then (friend0 1).trust else u64Max,
          if (friend0 1).trust / (H4.state.get_total_trust - (friend0 1).trust)
              < 2 ^ 64
          then Ratio.numerator ((friend0 1).trust /
            (H4.state.get_total_trust - (friend0 1).trust))
          else Ratio.one⟩] })) :=
  ⟨⟨by decide, by decide, by decide, by decide, by decide⟩,
    forward_request_freeze_link_spec H4 R1 1 0 (friend0 1)
      (by decide) (by decide) (by decide) (by decide) (by decide)⟩

/-! ### C7 — incoming `InconsistencyError` -/

/-- The handler that results from replacing `friend`'s slot `idx` with
`slot'` and recording the mutation `m`. -/
def update_slot_state (h : Handler) (pk : PublicKey) (idx : Nat)
    (friend : FriendState) (slot' : TokenChannelSlot) (m : MessengerMutation) :
    Handler :=
  { h with state := { h.state with friends := insertA h.state.friends pk { friend with tc_slots := insertA friend.tc_slots idx slot' } }, mutations := h.mutations ++ [m] }

/-- Applying a slot mutation to a present friend/slot pair: the state is
updated in place and the mutation recorded. -/
theorem apply_mutation_slot (h : Handler) (pk : PublicKey) (idx : Nat)
    (friend : FriendState) (slot : TokenChannelSlot) (sm : SlotMutation)
    (hfr : lookupA h.state.friends pk = some friend)
    (hslot : lookupA friend.tc_slots idx = some slot) :
    h.apply_mutation (.friendMutation pk (.slotMutation idx sm)) = some
      (update_slot_state h pk idx friend (apply_slot_mutation slot sm)
        (.friendMutation pk (.slotMutation idx sm))) := by
  simp only [Handler.apply_mutation, MessengerState.mutate,
    apply_friend_mutation, hfr,
    lookupA_modifyA_isSome friend.tc_slots idx
      (fun s => apply_slot_mutation s sm) slot hslot,
    Option.map_some', update_slot_state]

/-- Reading the replaced slot back out of the updated state. -/
theorem get_slot_update (h : Handler) (pk : PublicKey) (idx : Nat)
    (friend : FriendState) (slot' : TokenChannelSlot) (m : MessengerMutation) :
    (update_slot_state h pk idx friend slot' m).get_token_channel_slot pk idx
      = some slot' := by
  simp only [update_slot_state, Handler.get_token_channel_slot,
    lookupA_insertA_self, Option.some_bind]

theorem lookup_friend_update (h : Handler) (pk : PublicKey) (idx : Nat)
    (friend : FriendState) (slot' : TokenChannelSlot) (m : MessengerMutation) :
    lookupA (update_slot_state h pk idx friend slot' m).state.friends pk
      = some ({ friend with tc_slots := insertA friend.tc_slots idx slot' }) := by
  simp only [update_slot_state, lookupA_insertA_self]

/-- The handler state after recording the sender's reset terms as the
incoming inconsistency status (the first mutation of
`handle_inconsistency_error`). -/
def c7_slotA (fie : FriendInconsistencyError) (slot : TokenChannelSlot) :
    TokenChannelSlot :=
  apply_slot_mutation slot (.setIncomingInconsistency (.incoming ⟨fie.current_token, fie.balance_for_reset⟩))

def c7_m1 (pk : PublicKey) (fie : FriendInconsistencyError) : MessengerMutation :=
  .friendMutation pk (.slotMutation fie.token_channel_index (.setIncomingInconsistency (.incoming ⟨fie.current_token, fie.balance_for_reset⟩)))

def c7_hA (h : Handler) (pk : PublicKey) (fie : FriendInconsistencyError)
    (friend : FriendState) (slot : TokenChannelSlot) : Handler :=
  update_slot_state h pk fie.token_channel_index friend (c7_slotA fie slot) (c7_m1 pk fie)

def c7_friendA (fie : FriendInconsistencyError) (friend : FriendState)
    (slot : TokenChannelSlot) : FriendState :=
  { friend with tc_slots := insertA friend.tc_slots fie.token_channel_index (c7_slotA fie slot) }

def c7_mOut (pk : PublicKey) (fie : FriendInconsistencyError)
    (o : OutgoingInconsistency) : MessengerMutation :=
  .friendMutation pk (.slotMutation fie.token_channel_index (.setOutgoingInconsistency o))

/-- The handler state after additionally setting the outgoing
inconsistency status to `o`. -/
def c7_hOut (h : Handler) (pk : PublicKey) (fie : FriendInconsistencyError)
    (friend : FriendState) (slot : TokenChannelSlot)
    (o : OutgoingInconsistency) : Handler :=
  update_slot_state (c7_hA h pk fie friend slot) pk fie.token_channel_index (c7_friendA fie friend slot) (apply_slot_mutation (c7_slotA fie slot) (.setOutgoingInconsistency o)) (c7_mOut pk fie o)

/-- The outgoing `InconsistencyError` task built by
`handle_inconsistency_error` from our reset terms. -/
def out_inconsistency_task (fie : FriendInconsistencyError)
    (slot : TokenChannelSlot) : MessengerTask :=
  .friendMessage (.inconsistencyError
    { opt_ack := some fie.current_token,
      token_channel_index := fie.token_channel_index,
      current_token := calc_channel_reset_token slot.directional
        fie.token_channel_index,
      balance_for_reset := balance_for_reset slot.directional })

/-- C7: for any state with the friend and its slot present, an incoming
`InconsistencyError` records the sender's reset terms as the incoming
inconsistency status; if the outgoing status was `Empty` it becomes `Sent`
and exactly one outgoing `InconsistencyError` carrying our derived reset
token and balance-for-reset is emitted; if it was `Sent` and the ack equals
our derived reset token it becomes `Acked` with no emission; if it was
`Acked` nothing is emitted. -/
theorem handle_inconsistency_error_spec (h : Handler) (pk : PublicKey)
    (fie : FriendInconsistencyError) (friend : FriendState)
    (slot : TokenChannelSlot)
    (hfr : lookupA h.state.friends pk = some friend)
    (hslot : lookupA friend.tc_slots fie.token_channel_index = some slot) :
    ∃ h', handle_inconsistency_error h pk fie = some h' ∧
      (h'.get_token_channel_slot pk fie.token_channel_index).map
        (fun s => s.inconsistency_status.incoming)
        = some (.incoming ⟨fie.current_token, fie.balance_for_reset⟩) ∧
      (slot.inconsistency_status.outgoing = .empty →
        (h'.get_token_channel_slot pk fie.token_channel_index).map
          (fun s => s.inconsistency_status.outgoing) = some .sent ∧
        h'.messenger_tasks
          = h.messenger_tasks ++ [out_inconsistency_task fie slot]) ∧
      (slot.inconsistency_status.outgoing = .sent →
        fie.opt_ack = some (calc_channel_reset_token slot.directional
          fie.token_channel_index) →
        (h'.get_token_channel_slot pk fie.token_channel_index).map
          (fun s => s.inconsistency_status.outgoing) = some .acked ∧
        h'.messenger_tasks = h.messenger_tasks) ∧
      (slot.inconsistency_status.outgoing = .acked →
        (h'.get_token_channel_slot pk fie.token_channel_index).map
          (fun s => s.inconsistency_status.outgoing) = some .acked ∧
        h'.messenger_tasks = h.messenger_tasks) := by
  have hm1 := apply_mutation_slot h pk fie.token_channel_index friend slot
    (SlotMutation.setIncomingInconsistency (IncomingInconsistency.incoming ⟨fie.current_token, fie.balance_for_reset⟩)) hfr hslot
  have hget1 := get_slot_update h pk fie.token_channel_index friend
    (apply_slot_mutation slot (SlotMutation.setIncomingInconsistency (IncomingInconsistency.incoming ⟨fie.current_token, fie.balance_for_reset⟩)))
    (.friendMutation pk (.slotMutation fie.token_channel_index (SlotMutation.setIncomingInconsistency (IncomingInconsistency.incoming ⟨fie.current_token, fie.balance_for_reset⟩))))
  have hs1dir : (apply_slot_mutation slot (SlotMutation.setIncomingInconsistency (IncomingInconsistency.incoming ⟨fie.current_token, fie.balance_for_reset⟩))).directional
      = slot.directional := rfl
  have hs1out : (apply_slot_mutation slot (SlotMutation.setIncomingInconsistency (IncomingInconsistency.incoming ⟨fie.current_token, fie.balance_for_reset⟩))).inconsistency_status.outgoing
      = slot.inconsistency_status.outgoing := rfl
  have hfr1 := lookup_friend_update h pk fie.token_channel_index friend
    (apply_slot_mutation slot (SlotMutation.setIncomingInconsistency (IncomingInconsistency.incoming ⟨fie.current_token, fie.balance_for_reset⟩)))
    (.friendMutation pk (.slotMutation fie.token_channel_index (SlotMutation.setIncomingInconsistency (IncomingInconsistency.incoming ⟨fie.current_token, fie.balance_for_reset⟩))))
  have hslot1 : lookupA ({ friend with tc_slots := insertA friend.tc_slots fie.token_channel_index (apply_slot_mutation slot (SlotMutation.setIncomingInconsistency (IncomingInconsistency.incoming ⟨fie.current_token, fie.balance_for_reset⟩))) }).tc_slots fie.token_channel_index = some (apply_slot_mutation slot (SlotMutation.setIncomingInconsistency (IncomingInconsistency.incoming ⟨fie.current_token, fie.balance_for_reset⟩))) := by
    simp only [lookupA_insertA_self]
  rcases houtg : slot.inconsistency_status.outgoing with _ | _ | _
  · -- outgoing was Empty: transition to Sent and emit our reset terms
    have hm2 := apply_mutation_slot _ pk fie.token_channel_index
      ({ friend with tc_slots := insertA friend.tc_slots fie.token_channel_index (apply_slot_mutation slot (SlotMutation.setIncomingInconsistency (IncomingInconsistency.incoming ⟨fie.current_token, fie.balance_for_reset⟩))) })
      (apply_slot_mutation slot (SlotMutation.setIncomingInconsistency (IncomingInconsistency.incoming ⟨fie.current_token, fie.balance_for_reset⟩)))
      (.setOutgoingInconsistency .sent) hfr1 hslot1
    refine ⟨(c7_hOut h pk fie friend slot .sent).add_task (out_inconsistency_task fie slot), ?_, ?_, ?_, ?_, ?_⟩
    · simp only [handle_inconsistency_error, Option.bind_eq_bind', hm1,
        Option.some_bind, hget1, hs1dir, hs1out, houtg, hm2, Option.map_some',
        if_true, c7_hOut, c7_hA, c7_slotA, c7_friendA, c7_m1, c7_mOut,
        out_inconsistency_task, Handler.add_task]
    · simp only [Handler.add_task, c7_hOut, c7_hA, c7_slotA, c7_friendA,
        Handler.get_token_channel_slot, update_slot_state,
        lookupA_insertA_self, Option.some_bind, Option.map_some',
        apply_slot_mutation]
    · intro _
      constructor
      · simp only [Handler.add_task, c7_hOut, c7_hA, c7_slotA, c7_friendA,
          Handler.get_token_channel_slot, update_slot_state,
          lookupA_insertA_self, Option.some_bind, Option.map_some',
          apply_slot_mutation]
      · simp only [Handler.add_task, c7_hOut, c7_hA, update_slot_state]
    · intro hc; exact OutgoingInconsistency.noConfusion hc
    · intro hc; exact OutgoingInconsistency.noConfusion hc
  · -- outgoing was Sent: split on the validity of the ack
    cases hack : fie.opt_ack with
    | none =>
      refine ⟨(c7_hA h pk fie friend slot).add_task (out_inconsistency_task fie slot), ?_, ?_, ?_, ?_, ?_⟩
      · simp only [handle_inconsistency_error, Option.bind_eq_bind', hm1,
          Option.some_bind, hget1, hs1dir, hs1out, houtg, hack,
          Option.map_some', if_true, Bool.false_eq_true, if_false,
          c7_hA, c7_slotA, c7_m1, out_inconsistency_task, Handler.add_task]
      · simp only [Handler.add_task, c7_hA, c7_slotA,
          Handler.get_token_channel_slot, update_slot_state,
          lookupA_insertA_self, Option.some_bind, Option.map_some',
          apply_slot_mutation]
      · intro hc; exact OutgoingInconsistency.noConfusion hc
      · intro _ hc; exact Option.noConfusion hc
      · intro hc; exact OutgoingInconsistency.noConfusion hc
    | some acked =>
      by_cases hv : acked = calc_channel_reset_token slot.directional
          fie.token_channel_index
      · have hm2 := apply_mutation_slot _ pk fie.token_channel_index
          ({ friend with tc_slots := insertA friend.tc_slots fie.token_channel_index (apply_slot_mutation slot (SlotMutation.setIncomingInconsistency (IncomingInconsistency.incoming ⟨fie.current_token, fie.balance_for_reset⟩))) })
          (apply_slot_mutation slot (SlotMutation.setIncomingInconsistency (IncomingInconsistency.incoming ⟨fie.current_token, fie.balance_for_reset⟩)))
          (.setOutgoingInconsistency .acked) hfr1 hslot1
        refine ⟨c7_hOut h pk fie friend slot .acked, ?_, ?_, ?_, ?_, ?_⟩
        · simp only [handle_inconsistency_error, Option.bind_eq_bind', hm1,
            Option.some_bind, hget1, hs1dir, hs1out, houtg, hack, hv, hm2,
            Option.map_some', if_true, Bool.false_eq_true, if_false,
            decide_True, c7_hOut, c7_hA, c7_slotA, c7_friendA, c7_m1, c7_mOut]
        · simp only [c7_hOut, c7_hA, c7_slotA, c7_friendA,
            Handler.get_token_channel_slot, update_slot_state,
            lookupA_insertA_self, Option.some_bind, Option.map_some',
            apply_slot_mutation]
        · intro hc; exact OutgoingInconsistency.noConfusion hc
        · intro _ _
          constructor
          · simp only [c7_hOut, c7_hA, c7_slotA, c7_friendA,
              Handler.get_token_channel_slot, update_slot_state,
              lookupA_insertA_self, Option.some_bind, Option.map_some',
              apply_slot_mutation]
          · simp only [c7_hOut, c7_hA, update_slot_state]
        · intro hc; exact OutgoingInconsistency.noConfusion hc
      · refine ⟨(c7_hA h pk fie friend slot).add_task (out_inconsistency_task fie slot), ?_, ?_, ?_, ?_, ?_⟩
        · simp only [handle_inconsistency_error, Option.bind_eq_bind', hm1,
            Option.some_bind, hget1, hs1dir, hs1out, houtg, hack, hv,
            Option.map_some', if_true, Bool.false_eq_true, if_false,
            decide_False, c7_hA, c7_slotA, c7_m1, out_inconsistency_task,
            Handler.add_task]
        · simp only [Handler.add_task, c7_hA, c7_slotA,
            Handler.get_token_channel_slot, update_slot_state,
            lookupA_insertA_self, Option.some_bind, Option.map_some',
            apply_slot_mutation]
        · intro hc; exact OutgoingInconsistency.noConfusion hc
        · intro _ hc
          injection hc with hc
          exact absurd hc hv
        · intro hc; exact OutgoingInconsistency.noConfusion hc
  · -- outgoing was Acked: nothing is sent
    refine ⟨c7_hA h pk fie friend slot, ?_, ?_, ?_, ?_, ?_⟩
    · simp only [handle_inconsistency_error, Option.bind_eq_bind', hm1,
        Option.some_bind, hget1, hs1dir, hs1out, houtg, Option.map_some',
        Bool.false_eq_true, if_false, c7_hA, c7_slotA, c7_m1]
    · simp only [c7_hA, c7_slotA, Handler.get_token_channel_slot,
        update_slot_state, lookupA_insertA_self, Option.some_bind,
        Option.map_some', apply_slot_mutation]
    · intro hc; exact OutgoingInconsistency.noConfusion hc
    · intro hc; exact OutgoingInconsistency.noConfusion hc
    · intro _
      constructor
      · simp only [c7_hA, c7_slotA, Handler.get_token_channel_slot,
          update_slot_state, lookupA_insertA_self, Option.some_bind,
          Option.map_some', apply_slot_mutation, houtg]
      · simp only [c7_hA, update_slot_state]

/-- Witness for `handle_inconsistency_error_spec`: friend 5 of `H2`, slot
0, reset terms `(token 99, balance 5)`, outgoing status `Empty`. -/
theorem handle_inconsistency_error_spec_witness :
    (lookupA H2.state.friends 5 = some (friend0 1) ∧
      lookupA (friend0 1).tc_slots 0 = some (slot0 0 100)) ∧
    (∃ h', handle_inconsistency_error H2 5 ⟨none, 0, 99, 5⟩ = some h' ∧
      (h'.get_token_channel_slot 5 0).map
        (fun s => s.inconsistency_status.incoming)
        = some (.incoming ⟨99, 5⟩) ∧
      ((slot0 0 100).inconsistency_status.outgoing = .empty →
        (h'.get_token_channel_slot 5 0).map
          (fun s => s.inconsistency_status.outgoing) = some .sent ∧
        h'.messenger_tasks = H2.messenger_tasks ++
          [out_inconsistency_task ⟨none, 0, 99, 5⟩ (slot0 0 100)]) ∧
      ((slot0 0 100).inconsistency_status.outgoing = .sent →
        (none : Option ChannelToken)
          = some (calc_channel_reset_token (slot0 0 100).directional 0) →
        (h'.get_token_channel_slot 5 0).map
          (fun s => s.inconsistency_status.outgoing) = some .acked ∧
        h'.messenger_tasks = H2.messenger_tasks) ∧
      ((slot0 0 100).inconsistency_status.outgoing = .acked →
        (h'.get_token_channel_slot 5 0).map
          (fun s => s.inconsistency_status.outgoing) = some .acked ∧
        h'.messenger_tasks = H2.messenger_tasks)) :=
  ⟨⟨by decide, by decide⟩,
    handle_inconsistency_error_spec H2 5 ⟨none, 0, 99, 5⟩ (friend0 1)
      (slot0 0 100) (by decide) (by decide)⟩

/-! ### C10 — move token with an out-of-range channel index -/

/-- C10: a move token from a known friend whose channel index is at or
above the friend's `local_max_channels` produces exactly one
`SetMaxTokenChannels` task carrying `local_max_channels`, and nothing else:
the returned handler differs from the input only in that one appended task
(state, recorded mutations and freeze guard untouched). -/
theorem handle_move_token_set_max_spec (h : Handler) (pk : PublicKey)
    (mt : FriendMoveToken) (friend : FriendState)
    (hfr : lookupA h.state.friends pk = some friend)
    (hidx : friend.local_max_channels ≤ mt.token_channel_index) :
    handle_move_token h pk mt = some
      { h with messenger_tasks := h.messenger_tasks ++
        [.friendMessage (.setMaxTokenChannels ⟨friend.local_max_channels⟩)] } := by
  simp only [handle_move_token, hfr]
  rw [if_pos hidx]
  rfl

/-- Witness for `handle_move_token_set_max_spec`: friend 5 has
`local_max_channels = 4` and the move token names channel 7. -/
theorem handle_move_token_set_max_spec_witness :
    (lookupA H2.state.friends 5 = some (friend0 1) ∧
      (friend0 1).local_max_channels ≤ (7 : Nat)) ∧
    handle_move_token H2 5 ⟨7, [], 100, 0, 101⟩ = some
      { H2 with messenger_tasks := H2.messenger_tasks ++
        [.friendMessage (.setMaxTokenChannels ⟨(friend0 1).local_max_channels⟩)] } :=
  ⟨⟨by decide, by decide⟩,
    handle_move_token_set_max_spec H2 5 ⟨7, [], 100, 0, 101⟩ (friend0 1)
      (by decide) (by decide)⟩

end Offst
